import Mathlib

/-!
ARGO Ocean Assistant: decoder, synthetic generator, catalog and statistics.

A shallow embedding of the algorithmic core of `src/app.js` (class `ArgoAssistant`):
`parseNetCDFData`, `julianToDate`, `generateMockFloatData`, `isDeepOcean`,
`getKnownOceanLocations`, `getRegionName`, `loadNetCDFFiles` and `getDataStatistics`.

Modelling conventions.
* A JavaScript number is a `JSNum`: a finite value, `NaN`, `Infinity` or `-Infinity`.
  Finite doubles are idealised as rationals; comparisons, `Math.max`, `Math.min` are exact
  on doubles, so every statement proved for all rationals holds for all doubles. Arithmetic
  is exact rational arithmetic (rounding and the sign of zero are not modelled).
* `undefined` and `null` are kept apart from numbers in `JSVal`.
* `Math.random()` and the clock are oracles: the n-th call returns `random n`, `clock n`;
  stateful code threads the number of calls made so far.
-/

namespace ArgoAssistant

/-! ## JavaScript numbers and values -/

/-- A JavaScript number: a finite value (idealised as a rational), NaN, or a signed infinity. -/
inductive JSNum where
  | fin (q : ℚ)
  | nan
  | posInf
  | negInf
  deriving DecidableEq

namespace JSNum

/-- The relational operator `a < b` on numbers (false as soon as one side is NaN). -/
def lt : JSNum → JSNum → Bool
  | fin a, fin b => decide (a < b)
  | fin _, posInf => true
  | negInf, fin _ => true
  | negInf, posInf => true
  | _, _ => false

/-- The relational operator `a > b`, which JavaScript evaluates as `b < a`. -/
def gt (a b : JSNum) : Bool := lt b a

/-- The global `isNaN` on a number. -/
def isNaN : JSNum → Bool
  | nan => true
  | _ => false

/-- The truthiness of a number: `0` and `NaN` are falsy, everything else is truthy. -/
def truthy : JSNum → Bool
  | fin q => decide (q ≠ 0)
  | nan => false
  | posInf => true
  | negInf => true

/-- The global `isFinite` on a number. -/
def isFinite : JSNum → Bool
  | fin _ => true
  | _ => false

/-- The strict equality `a === b` on numbers (NaN differs from itself). -/
def strictEq : JSNum → JSNum → Bool
  | fin a, fin b => decide (a = b)
  | posInf, posInf => true
  | negInf, negInf => true
  | _, _ => false

/-- The sign of a number that is not NaN: `1`, `0` or `-1`. -/
def sgn : JSNum → Int
  | fin q => if 0 < q then 1 else if q < 0 then -1 else 0
  | posInf => 1
  | negInf => -1
  | nan => 0

/-- The product `a * b` (an infinity times zero is NaN). -/
def mul : JSNum → JSNum → JSNum
  | nan, _ => nan
  | _, nan => nan
  | fin a, fin b => fin (a * b)
  | a, b =>
    if sgn a * sgn b = 0 then nan else if 0 < sgn a * sgn b then posInf else negInf

/-- The sum `a + b` (opposite infinities add up to NaN). -/
def add : JSNum → JSNum → JSNum
  | nan, _ => nan
  | _, nan => nan
  | fin a, fin b => fin (a + b)
  | fin _, b => b
  | a, fin _ => a
  | posInf, posInf => posInf
  | negInf, negInf => negInf
  | posInf, negInf => nan
  | negInf, posInf => nan

/-- The two-argument `Math.max` (NaN as soon as one argument is NaN). -/
def max2 : JSNum → JSNum → JSNum
  | nan, _ => nan
  | _, nan => nan
  | a, b => if lt a b then b else a

/-- The two-argument `Math.min` (NaN as soon as one argument is NaN). -/
def min2 : JSNum → JSNum → JSNum
  | nan, _ => nan
  | _, nan => nan
  | a, b => if lt b a then b else a

/-- The variadic `Math.max(...xs)`: starts from `-Infinity`. -/
def maxOf (xs : List JSNum) : JSNum := xs.foldl max2 negInf

/-- The variadic `Math.min(...xs)`: starts from `Infinity`. -/
def minOf (xs : List JSNum) : JSNum := xs.foldl min2 posInf

end JSNum

/-- A value that may be `undefined`, `null` or a number. -/
inductive JSVal where
  | undefined
  | null
  | num (x : JSNum)
  deriving DecidableEq

namespace JSVal

/-- The abstract operation ToNumber: `undefined` is NaN and `null` is `0`. -/
def toNumber : JSVal → JSNum
  | undefined => JSNum.nan
  | null => JSNum.fin 0
  | num x => x

/-- The truthiness of a value. -/
def truthy : JSVal → Bool
  | num x => x.truthy
  | _ => false

/-- The comparison `v < c` against a number. -/
def lt (v : JSVal) (c : JSNum) : Bool := JSNum.lt v.toNumber c

/-- The comparison `v > c` against a number. -/
def gt (v : JSVal) (c : JSNum) : Bool := JSNum.gt v.toNumber c

/-- The global `isNaN(v)`. -/
def isNaN (v : JSVal) : Bool := v.toNumber.isNaN

end JSVal

/-- The optional element access `arr?.[i]` on a possibly absent numeric array. -/
def index (arr : Option (List JSNum)) (i : Nat) : JSVal :=
  match arr with
  | none => JSVal.undefined
  | some xs =>
    match xs[i]? with
    | none => JSVal.undefined
    | some x => JSVal.num x

/-! ## Dates -/

/-- A JavaScript `Date`: a time value in whole milliseconds since 1970-01-01T00:00:00Z, or
the invalid date. -/
inductive JSDate where
  | valid (ms : Int)
  | invalid
  deriving DecidableEq

/-- Truncation toward zero (ToIntegerOrInfinity on a finite value). -/
def truncate (q : ℚ) : Int := if 0 ≤ q then ⌊q⌋ else ⌈q⌉

/-- The constructor `new Date(t)` on a number: TimeClip keeps a finite time of magnitude at
most 8.64e15 ms, truncated to whole milliseconds, and makes everything else invalid. -/
def JSDate.ofNumber : JSNum → JSDate
  | JSNum.fin q => if |q| > 8640000000000000 then JSDate.invalid else JSDate.valid (truncate q)
  | _ => JSDate.invalid

/-- The time value of `new Date('1950-01-01T00:00:00Z')`: 7305 days before the Unix epoch. -/
def epoch1950 : Int := -631152000000

/-- The method `julianToDate(julian)`. The clock is read (and its call count advanced) only
by `new Date()`. Returns the date and the new clock count. -/
def julianToDate (clock : Nat → Int) (c : Nat) (julian : JSVal) : JSDate × Nat :=
  if !julian.truthy || julian.gt (JSNum.fin 99999) then (JSDate.valid (clock c), c + 1)
  else
    (JSDate.ofNumber
      (JSNum.add (JSNum.fin epoch1950) (JSNum.mul julian.toNumber (JSNum.fin 86400000))), c)

/-! ## The profile decoder `parseNetCDFData` -/

/-- One declared dimension of the file header. -/
structure Dimension where
  name : String
  size : Nat

/-- The outcome of `ncData.getDataVariable(name)`: it raises, returns nothing usable, or
returns a flat numeric array. -/
inductive VarRead where
  | throws
  | absent
  | data (xs : List JSNum)

/-- The reader object handed to `parseNetCDFData`. A missing `dimensions` list makes
`ncData.dimensions.find` raise. -/
structure NcData where
  dimensions : Option (List Dimension)
  getDataVariable : String → VarRead

/-- One profile record built by the decoder; `latitude` and `longitude` are a truthy number
or `null`. -/
structure Profile where
  latitude : JSVal
  longitude : JSVal
  date : JSDate
  temperature : List JSNum
  salinity : List JSNum
  pressure : List JSNum
  depth : List JSNum
  deriving DecidableEq

/-- The object returned by `parseNetCDFData`. -/
structure ParsedData where
  floatId : String
  profiles : List Profile

/-- The expression `dims.find(d => d.name === name)?.size || dflt`: the first dimension of
that name, with the default taken when there is none or when its size is `0` (falsy). -/
def dimSizeOr (dims : List Dimension) (name : String) (dflt : Nat) : Nat :=
  match dims.find? (fun d => d.name == name) with
  | none => dflt
  | some d => if d.size = 0 then dflt else d.size

/-- What the `try` block has in hand when it reaches the profile loop. -/
structure Header where
  nProfiles : Nat
  nLevels : Nat
  latitude : Option (List JSNum)
  longitude : Option (List JSNum)
  juld : Option (List JSNum)
  temp : Option (List JSNum)
  psal : Option (List JSNum)
  pres : Option (List JSNum)

/-- A variable read inside the `try` block: `none` when the read raised. -/
def VarRead.get? : VarRead → Option (Option (List JSNum))
  | VarRead.throws => none
  | VarRead.absent => some none
  | VarRead.data xs => some (some xs)

/-- Lines 106-114: the dimension and variable reads, in source order; `none` when one of them
raised (control then passes to `catch` with `result.profiles` still empty). -/
def readHeader (ncData : NcData) : Option Header := do
  let dims ← ncData.dimensions
  let nProfiles := dimSizeOr dims "N_PROF" 1
  let nLevels := dimSizeOr dims "N_LEVELS" 1000
  let latitude ← (ncData.getDataVariable "LATITUDE").get?
  let longitude ← (ncData.getDataVariable "LONGITUDE").get?
  let juld ← (ncData.getDataVariable "JULD").get?
  let temp ← (ncData.getDataVariable "TEMP").get?
  let psal ← (ncData.getDataVariable "PSAL").get?
  let pres ← (ncData.getDataVariable "PRES").get?
  pure { nProfiles := nProfiles, nLevels := nLevels, latitude := latitude,
         longitude := longitude, juld := juld, temp := temp, psal := psal, pres := pres }

/-- The expression `v && v < 99999 ? v : dflt` used for salinity and pressure. -/
def validOr (v : JSVal) (dflt : JSNum) : JSNum :=
  match v with
  | JSVal.num x => if x.truthy && x.lt (JSNum.fin 99999) then x else dflt
  | _ => dflt

/-- The expression `x || null` on an optional element access. -/
def orNull (v : JSVal) : JSVal := if v.truthy then v else JSVal.null

/-- The body of the level loop (lines 129-140) for profile `i` at level `j`. -/
def levelStep (h : Header) (i : Nat) (profile : Profile) (j : Nat) : Profile :=
  let idx := i * h.nLevels + j
  let tempVal := index h.temp idx
  let psalVal := index h.psal idx
  let presVal := index h.pres idx
  match tempVal with
  | JSVal.num t =>
    if t.truthy && t.lt (JSNum.fin 99999) && !t.isNaN then
      { profile with
        temperature := profile.temperature ++ [t]
        salinity := profile.salinity ++ [validOr psalVal (JSNum.fin 35)]
        pressure := profile.pressure ++ [validOr presVal (JSNum.fin ((j * 2 : Nat) : ℚ))]
        depth := profile.depth ++ [validOr presVal (JSNum.fin ((j * 2 : Nat) : ℚ))] }
    else profile
  | _ => profile

/-- The body of the profile loop (lines 118-145): the accumulated records and the clock
count before, and after, profile `i`. -/
def profileStep (clock : Nat → Int) (h : Header) (st : List Profile × Nat) (i : Nat) :
    List Profile × Nat :=
  let dc : JSDate × Nat :=
    match h.juld with
    | some xs => julianToDate clock st.2 (index (some xs) i)
    | none => (JSDate.valid (clock st.2), st.2 + 1)
  let fresh : Profile :=
    { latitude := orNull (index h.latitude i)
      longitude := orNull (index h.longitude i)
      date := dc.1
      temperature := []
      salinity := []
      pressure := []
      depth := [] }
  let profile := (List.range h.nLevels).foldl (levelStep h i) fresh
  if profile.temperature.length > 0 then (st.1 ++ [profile], dc.2) else (st.1, dc.2)

/-- The method `parseNetCDFData(ncData, floatId)`, with the clock count threaded. -/
def parseNetCDFData (clock : Nat → Int) (c : Nat) (ncData : NcData) (floatId : String) :
    ParsedData × Nat :=
  match readHeader ncData with
  | none => ({ floatId := floatId, profiles := [] }, c)
  | some h =>
    let r := (List.range h.nProfiles).foldl (profileStep clock h) ([], c)
    ({ floatId := floatId, profiles := r.1 }, r.2)

/-! ## Land exclusion, the fallback table and region names -/

/-- The method `isDeepOcean(lat, lon)`: ten exclusion rectangles tested in source order. -/
def isDeepOcean (lat lon : JSNum) : Bool :=
  -- Avoid Indian subcontinent
  if lat.gt (.fin 8) && lat.lt (.fin 37) && lon.gt (.fin 68) && lon.lt (.fin 97) then false
  -- Avoid Arabian Peninsula
  else if lat.gt (.fin 12) && lat.lt (.fin 30) && lon.gt (.fin 34) && lon.lt (.fin 60) then false
  -- Avoid East Africa coast
  else if lat.gt (.fin (-35)) && lat.lt (.fin 15) && lon.gt (.fin 32) && lon.lt (.fin 52) then false
  -- Avoid Madagascar
  else if lat.gt (.fin (-26)) && lat.lt (.fin (-12)) && lon.gt (.fin 43) && lon.lt (.fin 51) then false
  -- Avoid Sri Lanka area
  else if lat.gt (.fin 5) && lat.lt (.fin 10) && lon.gt (.fin 79) && lon.lt (.fin 82) then false
  -- Avoid Maldives area
  else if lat.gt (.fin 0) && lat.lt (.fin 7) && lon.gt (.fin 72) && lon.lt (.fin 74) then false
  -- Avoid Indonesian archipelago
  else if lat.gt (.fin (-11)) && lat.lt (.fin 6) && lon.gt (.fin 95) && lon.lt (.fin 141) then false
  -- Avoid Australian coast
  else if lat.gt (.fin (-44)) && lat.lt (.fin (-10)) && lon.gt (.fin 110) && lon.lt (.fin 155) then false
  -- Avoid Persian Gulf
  else if lat.gt (.fin 24) && lat.lt (.fin 30) && lon.gt (.fin 48) && lon.lt (.fin 57) then false
  -- Avoid Red Sea
  else if lat.gt (.fin 12) && lat.lt (.fin 28) && lon.gt (.fin 32) && lon.lt (.fin 43) then false
  else true

/-- A coordinate pair of the fallback table. -/
structure Location where
  lat : ℚ
  lon : ℚ
  deriving DecidableEq

/-- The method `getKnownOceanLocations()`: the table of 18 fallback coordinates. -/
def getKnownOceanLocations : List Location :=
  [ ⟨15.5, 65.0⟩, ⟨18.2, 67.5⟩, ⟨20.1, 63.8⟩,
    ⟨12.5, 87.0⟩, ⟨15.8, 89.2⟩, ⟨18.0, 85.5⟩,
    ⟨-5.0, 75.0⟩, ⟨-8.5, 82.0⟩, ⟨-12.0, 78.5⟩,
    ⟨-25.0, 70.0⟩, ⟨-30.5, 85.0⟩, ⟨-35.2, 95.0⟩,
    ⟨-15.0, 55.0⟩, ⟨-20.5, 58.0⟩, ⟨-10.0, 52.0⟩,
    ⟨-25.0, 105.0⟩, ⟨-30.0, 100.0⟩, ⟨-20.0, 108.0⟩ ]

/-- The method `getRegionName(lat, lon)`. Every use of an argument is a comparison with a
number, so a `null` argument acts as its ToNumber value; callers pass `toNumber`. -/
def getRegionName (lat lon : JSNum) : String :=
  if lat.gt (.fin 10) && lon.gt (.fin 55) && lon.lt (.fin 75) then "Arabian Sea"
  else if lat.gt (.fin 5) && lat.lt (.fin 22) && lon.gt (.fin 80) && lon.lt (.fin 95) then
    "Bay of Bengal"
  else if lat.gt (.fin (-20)) && lat.lt (.fin 5) && lon.gt (.fin 60) && lon.lt (.fin 90) then
    "Central Indian Ocean"
  else if lat.lt (.fin (-20)) && lon.gt (.fin 30) && lon.lt (.fin 110) then
    "Southern Indian Ocean"
  else if lat.gt (.fin (-30)) && lat.lt (.fin 10) && lon.gt (.fin 40) && lon.lt (.fin 60) then
    "Western Indian Ocean"
  else if lat.gt (.fin (-35)) && lat.lt (.fin (-5)) && lon.gt (.fin 90) && lon.lt (.fin 115) then
    "Eastern Indian Ocean"
  else "Indian Ocean"

/-! ## The unified catalog entry -/

/-- A sensor field of an entry: a scalar (synthetic) or a sequence (decoded). -/
inductive Sensor where
  | scalar (x : JSNum)
  | series (xs : List JSNum)
  deriving DecidableEq

/-- The `status` field. -/
inductive Status where
  | active
  | inactive
  deriving DecidableEq

/-- The `floatType` field. -/
inductive FloatType where
  | Core
  | BGC
  deriving DecidableEq

/-- One entry of `floatData`. Fields that only one of the two producers writes are optional. -/
structure FloatEntry where
  id : String
  floatId : Option String
  profileIndex : Option Nat
  lat : JSNum
  lon : JSNum
  lastProfile : JSDate
  temperature : Sensor
  salinity : Sensor
  pressure : Option Sensor
  depth : Sensor
  status : Status
  chlorophyll : Option ℚ
  dissolvedOxygen : Option ℚ
  nitrate : Option ℚ
  ph : Option ℚ
  floatType : FloatType
  region : String
  profileVariation : ℚ

/-! ## Oracles -/

/-- One result of `Math.random()`: a value in `[0, 1)`. -/
structure Draw where
  val : ℚ
  nonneg : 0 ≤ val
  lt_one : val < 1

/-- The environment of a run: the successive results of `Math.random()`, the successive
clock readings (`new Date()`, `Date.now()`, in ms), and the value of
`Math.sin(t / 31536000000 * 2 * Math.PI)` for a clock reading `t`. -/
structure World where
  random : Nat → Draw
  clock : Nat → Int
  seasonal : Int → ℚ

/-- How many times each oracle has been called so far. -/
structure Calls where
  random : Nat
  clock : Nat
  deriving DecidableEq

/-! ## The synthetic generator `generateMockFloatData` -/

/-- A sampling box of `oceanRegions`. -/
structure Region where
  latMin : ℚ
  latMax : ℚ
  lonMin : ℚ
  lonMax : ℚ

/-- The six sampling boxes, in source order. -/
def oceanRegions : List Region :=
  [ ⟨10, 25, 55, 75⟩, ⟨5, 22, 80, 95⟩, ⟨-20, 5, 60, 90⟩,
    ⟨-40, -20, 30, 110⟩, ⟨-30, 10, 40, 60⟩, ⟨-35, -5, 90, 115⟩ ]

/-- The expression for `floatsPerRegion` (line 180). -/
def floatsPerRegion (regionIndex : Nat) : Nat :=
  50 / oceanRegions.length + (if regionIndex < 50 % oceanRegions.length then 1 else 0)

/-- The `do ... while` placement loop (lines 185-189) with the acceptance test `ocean` as a
parameter, entered with `attempts` tries already made and `r` draws already consumed. Returns
`lat`, `lon`, `attempts` and the draw count. -/
def placeLoopWith (ocean : JSNum → JSNum → Bool) (random : Nat → Draw) (region : Region)
    (attempts r : Nat) : ℚ × ℚ × Nat × Nat :=
  let lat := (random r).val * (region.latMax - region.latMin) + region.latMin
  let lon := (random (r + 1)).val * (region.lonMax - region.lonMin) + region.lonMin
  if !ocean (.fin lat) (.fin lon) && attempts + 1 < 20 then
    placeLoopWith ocean random region (attempts + 1) (r + 2)
  else (lat, lon, attempts + 1, r + 2)
termination_by 20 - attempts
decreasing_by
  simp only [Bool.and_eq_true, decide_eq_true_eq] at *
  omega

/-- The placement loop of `generateMockFloatData`: the test is `this.isDeepOcean`. -/
def placeLoop (random : Nat → Draw) (region : Region) (attempts r : Nat) : ℚ × ℚ × Nat × Nat :=
  placeLoopWith isDeepOcean random region attempts r

/-- The index `Math.floor(Math.random() * n)` into a table of `n > 0` elements. -/
def randomIndex (d : Draw) (n : Nat) (hn : 0 < n) : Fin n :=
  ⟨⌊d.val * n⌋.toNat, by
    have h0 : 0 ≤ d.val * n := mul_nonneg d.nonneg (by positivity)
    have h1 : d.val * n < n := by
      have hn' : (0 : ℚ) < n := by exact_mod_cast hn
      calc d.val * n < 1 * n := by exact mul_lt_mul_of_pos_right d.lt_one hn'
        _ = n := one_mul _
    have h2 : ⌊d.val * n⌋ < (n : Int) := by
      rw [Int.floor_lt]; exact_mod_cast h1
    have h3 : 0 ≤ ⌊d.val * n⌋ := Int.floor_nonneg.mpr h0
    omega⟩

/-- Lines 183-196: the position of one float and the draw count afterwards. -/
def placeFloat (random : Nat → Draw) (region : Region) (r : Nat) : ℚ × ℚ × Nat :=
  let p := placeLoop random region 0 r
  if p.2.2.1 ≥ 20 then
    let knownGoodLocations := getKnownOceanLocations
    let randomLocation :=
      knownGoodLocations.get (randomIndex (random p.2.2.2) knownGoodLocations.length (by decide))
    (randomLocation.lat, randomLocation.lon, p.2.2.2 + 1)
  else (p.1, p.2.1, p.2.2.2)

/-- The method `getRealisticTemperature(lat)` given its one draw. -/
def getRealisticTemperature (lat : ℚ) (d : Draw) : ℚ :=
  max 2 (28 - |lat| * 0.4 + (d.val - 0.5) * 4)

/-- The method `getRealisticSalinity(lat)` given its one draw. -/
def getRealisticSalinity (lat : ℚ) (d : Draw) : ℚ :=
  max 33 (min 37 (34.5 + |lat - 15| * 0.02 + (d.val - 0.5) * 0.5))

/-- The method `getRealisticChlorophyll(lat)` given the seasonal sine and its one draw. -/
def getRealisticChlorophyll (lat : ℚ) (sine : ℚ) (d : Draw) : ℚ :=
  let base : ℚ := if |lat| > 20 then 0.8 else 0.3
  let seasonal := sine * 0.2
  max 0.1 (base + seasonal + d.val * 0.4)

/-- The method `getRealisticOxygen(lat)` given its two draws (the first goes to
`getRealisticTemperature`). -/
def getRealisticOxygen (lat : ℚ) (d1 d2 : Draw) : ℚ :=
  let temp := getRealisticTemperature lat d1
  max 2 (min 9 (8.5 - (temp - 2) * 0.15 + (d2.val - 0.5) * 1.5))

/-- The method `getRealisticNitrate(lat)` given its one draw. -/
def getRealisticNitrate (lat : ℚ) (d : Draw) : ℚ :=
  let upwelling : ℚ := if |lat| > 15 then 1.5 else 0.5
  max 0 (min 45 (upwelling + d.val * 2))

/-- The method `getRealisticPH(lat)` given its one draw. -/
def getRealisticPH (lat : ℚ) (d : Draw) : ℚ :=
  max 7.8 (min 8.3 (8.1 - |lat| * 0.002 + (d.val - 0.5) * 0.1))

/-- Lines 183-214 without the `push`: place a float and build its entry, fields evaluated in
source order. `count` is `floats.length`; returns the entry and the oracle call counts. -/
def newFloat (w : World) (region : Region) (count : Nat) (k : Calls) : FloatEntry × Calls :=
  let pos := placeFloat w.random region k.random
  let lat := pos.1
  let lon := pos.2.1
  let r := pos.2.2
  let c := k.clock
  let rnd := fun (n : Nat) => w.random (r + n)
  let entry : FloatEntry :=
    { id := "ARGO_" ++ toString (4900000 + count)
      floatId := none
      profileIndex := none
      lat := .fin lat
      lon := .fin lon
      lastProfile := JSDate.ofNumber (.fin ((w.clock c : ℚ) - (rnd 0).val * 2592000000))
      temperature := .scalar (.fin (getRealisticTemperature lat (rnd 1)))
      salinity := .scalar (.fin (getRealisticSalinity lat (rnd 2)))
      pressure := none
      depth := .scalar (.fin (1500 + (rnd 3).val * 500))
      status := if (rnd 4).val > 0.15 then .active else .inactive
      chlorophyll := some (getRealisticChlorophyll lat (w.seasonal (w.clock (c + 1))) (rnd 5))
      dissolvedOxygen := some (getRealisticOxygen lat (rnd 6) (rnd 7))
      nitrate := some (getRealisticNitrate lat (rnd 8))
      ph := some (getRealisticPH lat (rnd 9))
      floatType := if (rnd 10).val > 0.7 then .BGC else .Core
      region := getRegionName (.fin lat) (.fin lon)
      profileVariation := (rnd 11).val }
  (entry, { random := r + 12, clock := c + 2 })

/-- One iteration of the inner `for` loop (lines 183-214): build the entry and push it. -/
def pushFloat (w : World) (region : Region) (st : List FloatEntry × Calls) :
    List FloatEntry × Calls :=
  let b := newFloat w region st.1.length st.2
  (st.1 ++ [b.1], b.2)

/-- The body of `oceanRegions.forEach` (lines 180-215) for one box and its index. -/
def regionStep (w : World) (st : List FloatEntry × Calls) (ir : Nat × Region) :
    List FloatEntry × Calls :=
  (List.range (floatsPerRegion ir.1)).foldl (fun s _ => pushFloat w ir.2 s) st

/-- The method `generateMockFloatData()`, started with the given oracle call counts. -/
def generateMockFloatData (w : World) (k : Calls) : List FloatEntry × Calls :=
  oceanRegions.enum.foldl (regionStep w) ([], k)

/-! ## The catalog and its assembler `loadNetCDFFiles` -/

/-- The mutable fields of the application that the core reads and writes. `realData` lists
its keys in insertion order. -/
structure AppState where
  floatData : List FloatEntry
  realData : List (String × ParsedData)
  dataLoaded : Bool

/-- The fields as the constructor leaves them before `init` runs. -/
def AppState.constructed : AppState :=
  { floatData := [], realData := [], dataLoaded := false }

/-- One file of `ncFiles` as the loop sees it. `fetched` is `none` when anything before the
float identifier is extracted raised (the fetch was rejected, the response was not ok, the
format library was not loaded, or the reader constructor raised); `floatId` is the capture of
`/(\d+)_prof\.nc/` in the path, `none` when the path does not match (indexing `null` raises). -/
structure Source where
  fetched : Option NcData
  floatId : Option String

/-- The hard-coded `ncFiles` with the identifier the pattern captures in each path. -/
def ncFiles : List (String × String) :=
  [ ("data/1901766_prof.nc", "1901766"), ("data/1902674_prof.nc", "1902674"),
    ("data/3902658_prof.nc", "3902658"), ("data/7902242_prof.nc", "7902242"),
    ("data/7902312_prof.nc", "7902312") ]

/-- The method `getRandomLatitude()` given its draw. -/
def getRandomLatitude (d : Draw) : ℚ := -40 + d.val * 65

/-- The method `getRandomLongitude()` given its draw. -/
def getRandomLongitude (d : Draw) : ℚ := 30 + d.val * 125

/-- The assignment `obj[key] = value` on `realData`. -/
def setKey (obj : List (String × ParsedData)) (key : String) (value : ParsedData) :
    List (String × ParsedData) :=
  if obj.any (fun kv => kv.1 == key) then
    obj.map (fun kv => if kv.1 == key then (key, value) else kv)
  else obj ++ [(key, value)]

/-- The object literal of lines 72-87 for profile `idx`, fields evaluated in source order;
`r0` draws have been consumed before. Returns the entry and the new draw count. -/
def newEntry (w : World) (floatId : String) (r0 : Nat) (idx : Nat) (profile : Profile) :
    FloatEntry × Nat :=
  let latR : JSNum × Nat :=
    match profile.latitude with
    | JSVal.num x => if x.truthy then (x, r0) else (.fin (getRandomLatitude (w.random r0)), r0 + 1)
    | _ => (.fin (getRandomLatitude (w.random r0)), r0 + 1)
  let r1 := latR.2
  let lonR : JSNum × Nat :=
    match profile.longitude with
    | JSVal.num x => if x.truthy then (x, r1) else (.fin (getRandomLongitude (w.random r1)), r1 + 1)
    | _ => (.fin (getRandomLongitude (w.random r1)), r1 + 1)
  let r2 := lonR.2
  let entry : FloatEntry :=
    { id := "ARGO_" ++ floatId ++ "_" ++ toString idx
      floatId := some floatId
      profileIndex := some idx
      lat := latR.1
      lon := lonR.1
      lastProfile := profile.date
      temperature := .series profile.temperature
      salinity := .series profile.salinity
      pressure := some (.series profile.pressure)
      depth := .series profile.depth
      status := .active
      chlorophyll := none
      dissolvedOxygen := none
      nitrate := none
      ph := none
      floatType := .Core
      region := getRegionName profile.latitude.toNumber profile.longitude.toNumber
      profileVariation := (w.random r2).val }
  (entry, r2 + 1)

/-- The callback of `parsedData.profiles.forEach` (lines 71-88): build the entry of profile
`idx` and push it. `st` is `newFloatData` and the number of draws consumed. -/
def pushProfile (w : World) (floatId : String) (st : List FloatEntry × Nat)
    (ip : Nat × Profile) : List FloatEntry × Nat :=
  let b := newEntry w floatId st.2 ip.1 ip.2
  (st.1 ++ [b.1], b.2)

/-- The state of the `for ... of` loop of `loadNetCDFFiles`. -/
structure LoadState where
  newFloatData : List FloatEntry
  realData : List (String × ParsedData)
  calls : Calls

/-- One iteration of the `for ... of` loop (lines 48-92): the `try` block with its `catch`,
which only logs. -/
def sourceStep (w : World) (st : LoadState) (s : Source) : LoadState :=
  match s.fetched with
  | none => st
  | some data =>
    match s.floatId with
    | none => st
    | some floatId =>
      let parsed := parseNetCDFData w.clock st.calls.clock data floatId
      let parsedData := parsed.1
      let pushed :=
        if parsedData.profiles.length > 0 then
          parsedData.profiles.enum.foldl (pushProfile w floatId) (st.newFloatData, st.calls.random)
        else (st.newFloatData, st.calls.random)
      { newFloatData := pushed.1
        realData := setKey st.realData floatId parsedData
        calls := { random := pushed.2, clock := parsed.2 } }

/-- The method `loadNetCDFFiles()` over a list of sources: the loop, then lines 95-98. -/
def loadNetCDFFilesFrom (w : World) (sources : List Source) (app : AppState) (k : Calls) :
    AppState × Calls :=
  let st := sources.foldl (sourceStep w)
    { newFloatData := [], realData := app.realData, calls := k }
  if st.newFloatData.length > 0 then
    ({ floatData := st.newFloatData, realData := st.realData, dataLoaded := true }, st.calls)
  else ({ app with realData := st.realData }, st.calls)

/-- The method `loadNetCDFFiles()` on the hard-coded `ncFiles`, given what retrieving and
opening each path produces. -/
def loadNetCDFFiles (w : World) (fetch : String → Option NcData) (app : AppState) (k : Calls) :
    AppState × Calls :=
  loadNetCDFFilesFrom w (ncFiles.map fun pf => { fetched := fetch pf.1, floatId := some pf.2 })
    app k

/-- The catalog part of `init()` (line 18), run on the constructed object. -/
def init (w : World) : AppState × Calls :=
  let g := generateMockFloatData w { random := 0, clock := 0 }
  ({ AppState.constructed with floatData := g.1 }, g.2)

/-! ## The aggregator `getDataStatistics` -/

/-- A reported range. -/
structure Range where
  min : JSNum
  max : JSNum
  deriving DecidableEq

/-- The object returned by `getDataStatistics`. -/
structure Stats where
  activeFloats : Nat
  totalProfiles : Nat
  tempRange : Range
  salinityRange : Range

/-- One of the two `if / else if` blocks of the `forEach` callback (lines 1293-1301 with the
band `-5`, `100`; lines 1303-1311 with the band `20`, `50`). -/
def absorb (lo hi : JSNum) (rng : Range) (field : Sensor) : Range :=
  match field with
  | Sensor.series (x :: xs) =>
    let maxV := JSNum.maxOf (x :: xs)
    let minV := JSNum.minOf (x :: xs)
    let rng1 := if maxV.lt hi then { rng with max := JSNum.max2 rng.max maxV } else rng
    if minV.gt lo then { rng1 with min := JSNum.min2 rng1.min minV } else rng1
  | Sensor.series [] => rng
  | Sensor.scalar v => { max := JSNum.max2 rng.max v, min := JSNum.min2 rng.min v }

/-- The `forEach` callback of `getDataStatistics` (lines 1292-1312). -/
def statStep (stats : Stats) (float : FloatEntry) : Stats :=
  { stats with
    tempRange := absorb (.fin (-5)) (.fin 100) stats.tempRange float.temperature
    salinityRange := absorb (.fin 20) (.fin 50) stats.salinityRange float.salinity }

/-- The method `getDataStatistics()` on a catalog. -/
def getDataStatistics (floatData : List FloatEntry) : Stats :=
  let stats : Stats :=
    { activeFloats := (floatData.filter fun f => f.status = Status.active).length
      totalProfiles := floatData.length
      tempRange := { min := .posInf, max := .negInf }
      salinityRange := { min := .posInf, max := .negInf } }
  let stats := floatData.foldl statStep stats
  -- Set defaults if no valid data
  let stats :=
    if stats.tempRange.min.strictEq .posInf then
      { stats with tempRange := { min := .fin 2, max := .fin 29 } }
    else stats
  if stats.salinityRange.min.strictEq .posInf then
    { stats with salinityRange := { min := .fin 34.5, max := .fin 35.5 } }
  else stats

/-! ## Sample inputs -/

/-- A clock that always reads `0`. -/
def clockZero : Nat → Int := fun _ => 0

/-- A reader with the given dimensions and `TEMP` array and no other variable. -/
def ncTempOnly (dims : List Dimension) (temp : List JSNum) : NcData :=
  { dimensions := some dims
    getDataVariable := fun name => if name = "TEMP" then VarRead.data temp else VarRead.absent }

/-- One profile of two levels with temperatures `5` and `7`. -/
def ncTwoLevels : NcData :=
  ncTempOnly [⟨"N_PROF", 1⟩, ⟨"N_LEVELS", 2⟩] [.fin 5, .fin 7]

/-- A reader with the given dimensions in which all six variables are present. -/
def ncFull (dims : List Dimension) (latitude longitude juld temp psal pres : List JSNum) :
    NcData :=
  { dimensions := some dims
    getDataVariable := fun name =>
      if name = "LATITUDE" then VarRead.data latitude
      else if name = "LONGITUDE" then VarRead.data longitude
      else if name = "JULD" then VarRead.data juld
      else if name = "TEMP" then VarRead.data temp
      else if name = "PSAL" then VarRead.data psal
      else if name = "PRES" then VarRead.data pres
      else VarRead.throws }

/-- One profile of one level at (-20, 70) whose temperature is `-Infinity`, with salinity 35,
pressure 5 and a fill-valued date. -/
def ncNegInf : NcData :=
  ncFull [⟨"N_PROF", 1⟩, ⟨"N_LEVELS", 1⟩] [.fin (-20)] [.fin 70] [.fin 999999] [.negInf]
    [.fin 35] [.fin 5]

/-- The draw `0.2`. -/
def drawFifth : Draw := ⟨0.2, by norm_num, by norm_num⟩

/-- A run in which every call of `Math.random()` returns `0.2` and the clock reads `0`. -/
def worldFifth : World :=
  { random := fun _ => drawFifth, clock := fun _ => 0, seasonal := fun _ => 0 }

/-- No oracle call made yet. -/
def noCalls : Calls := { random := 0, clock := 0 }

/-! ## Specification-side predicates and further sample values -/

/-- The four sequences of a record have one length. -/
def Profile.Aligned (p : Profile) : Prop :=
  p.temperature.length = p.salinity.length ∧ p.salinity.length = p.pressure.length ∧
    p.pressure.length = p.depth.length

/-- A temperature the level test lets through: a non-zero finite value below 99999, or
`-Infinity`. -/
def AcceptedTemp (t : JSNum) : Prop :=
  (∃ q : ℚ, t = .fin q ∧ q ≠ 0 ∧ q < 99999) ∨ t = .negInf

/-- What every record pushed by the profile loop satisfies. -/
def Profile.Good (p : Profile) : Prop :=
  p.Aligned ∧ p.temperature ≠ [] ∧ ∀ t ∈ p.temperature, AcceptedTemp t

/-- The record decoded from `ncTwoLevels`. -/
def profileTwoLevels : Profile :=
  { latitude := .null, longitude := .null, date := .valid 0
    temperature := [.fin 5, .fin 7], salinity := [.fin 35, .fin 35]
    pressure := [.fin 0, .fin 2], depth := [.fin 0, .fin 2] }

/-- The record decoded from `ncNegInf`. -/
def profileNegInf : Profile :=
  { latitude := .num (.fin (-20)), longitude := .num (.fin 70), date := .valid 0
    temperature := [.negInf], salinity := [.fin 35]
    pressure := [.fin 5], depth := [.fin 5] }

/-- A decoded-style entry with the given temperature and salinity sequences. -/
def seriesEntry (temperature salinity : List JSNum) : FloatEntry :=
  { id := "ARGO_1901766_0", floatId := some "1901766", profileIndex := some 0
    lat := .fin (-20), lon := .fin 70, lastProfile := .valid 0
    temperature := .series temperature, salinity := .series salinity
    pressure := some (.series []), depth := .series []
    status := .active, chlorophyll := none, dissolvedOxygen := none, nitrate := none, ph := none
    floatType := .Core, region := "Central Indian Ocean", profileVariation := 0 }

/-- A synthetic-style entry with the given scalar temperature and salinity. -/
def scalarEntry (temperature salinity : JSNum) : FloatEntry :=
  { id := "ARGO_4900000", floatId := none, profileIndex := none
    lat := .fin (-20), lon := .fin 70, lastProfile := .valid 0
    temperature := .scalar temperature, salinity := .scalar salinity
    pressure := none, depth := .scalar (.fin 1500)
    status := .active, chlorophyll := some 0.3, dissolvedOxygen := some 6, nitrate := some 1,
    ph := some 8, floatType := .Core, region := "Central Indian Ocean", profileVariation := 0 }

/-- The range a list of fields folds to, before the defaults are applied. -/
def foldRange (lo hi : JSNum) (fields : List Sensor) : Range :=
  fields.foldl (absorb lo hi) { min := .posInf, max := .negInf }

/-- The value `m` is the least element of `xs`. -/
def IsMinOf (m : ℚ) (xs : List ℚ) : Prop := m ∈ xs ∧ ∀ y ∈ xs, m ≤ y

/-- The value `M` is the greatest element of `xs`. -/
def IsMaxOf (M : ℚ) (xs : List ℚ) : Prop := M ∈ xs ∧ ∀ y ∈ xs, y ≤ M

/-- The value `m` is the minimum of one of the sequences and exceeds `lo`. -/
def GatedMin (lo : ℚ) (seqs : List (List ℚ)) (m : ℚ) : Prop :=
  ∃ xs ∈ seqs, IsMinOf m xs ∧ lo < m

/-- The value `M` is the maximum of one of the sequences and is below `hi`. -/
def GatedMax (hi : ℚ) (seqs : List (List ℚ)) (M : ℚ) : Prop :=
  ∃ xs ∈ seqs, IsMaxOf M xs ∧ M < hi

/-- The running minimum is `Infinity` while no sequence has passed the band check, and otherwise
the least gated minimum. -/
def MinInv (lo : ℚ) (seqs : List (List ℚ)) (v : JSNum) : Prop :=
  (v = .posInf ∧ ∀ m, ¬ GatedMin lo seqs m) ∨
    ∃ m, v = .fin m ∧ GatedMin lo seqs m ∧ ∀ a, GatedMin lo seqs a → m ≤ a

/-- The running maximum is `-Infinity` while no sequence has passed the band check, and otherwise
the greatest gated maximum. -/
def MaxInv (hi : ℚ) (seqs : List (List ℚ)) (v : JSNum) : Prop :=
  (v = .negInf ∧ ∀ M, ¬ GatedMax hi seqs M) ∨
    ∃ M, v = .fin M ∧ GatedMax hi seqs M ∧ ∀ b, GatedMax hi seqs b → b ≤ M

/-- The sensor fields of a catalog whose entries all hold sequences of finite readings. -/
def seriesFields (seqs : List (List ℚ)) : List Sensor :=
  seqs.map fun xs => Sensor.series (xs.map JSNum.fin)

/-- The readings 5, 31, -10 and 150 in one sequence-valued entry. -/
def catalogOneSeries : List FloatEntry :=
  [seriesEntry [.fin 5, .fin 31, .fin (-10), .fin 150] [.fin 35]]

/-- The readings 5, 31, -10 and 150 in four one-element sequence-valued entries. -/
def catalogFourSeries : List FloatEntry :=
  [seriesEntry [.fin 5] [.fin 35], seriesEntry [.fin 31] [.fin 35],
   seriesEntry [.fin (-10)] [.fin 35], seriesEntry [.fin 150] [.fin 35]]

/-- The readings 5, 31, -10 and 150 in four scalar-valued entries. -/
def catalogFourScalars : List FloatEntry :=
  [scalarEntry (.fin 5) (.fin 35), scalarEntry (.fin 31) (.fin 35),
   scalarEntry (.fin (-10)) (.fin 35), scalarEntry (.fin 150) (.fin 35)]

/-- An exclusion rectangle. -/
structure Zone where
  latMin : ℚ
  latMax : ℚ
  lonMin : ℚ
  lonMax : ℚ

/-- The point lies strictly inside the rectangle on all four sides. -/
def Zone.contains (z : Zone) (lat lon : JSNum) : Bool :=
  lat.gt (.fin z.latMin) && lat.lt (.fin z.latMax) && lon.gt (.fin z.lonMin) &&
    lon.lt (.fin z.lonMax)

/-- The ten exclusion rectangles of `isDeepOcean`, in source order: Indian subcontinent,
Arabian Peninsula, East Africa coast, Madagascar, Sri Lanka, Maldives, Indonesian archipelago,
Australian coast, Persian Gulf, Red Sea. -/
def exclusionZones : List Zone :=
  [ ⟨8, 37, 68, 97⟩, ⟨12, 30, 34, 60⟩, ⟨-35, 15, 32, 52⟩, ⟨-26, -12, 43, 51⟩, ⟨5, 10, 79, 82⟩,
    ⟨0, 7, 72, 74⟩, ⟨-11, 6, 95, 141⟩, ⟨-44, -10, 110, 155⟩, ⟨24, 30, 48, 57⟩, ⟨12, 28, 32, 43⟩ ]

/-- A position is acceptable when it passes `isDeepOcean` or is listed in the fallback
table. -/
def OceanOrFallback (lat lon : JSNum) : Prop :=
  isDeepOcean lat lon = true ∨
    ∃ loc ∈ getKnownOceanLocations, lat = .fin loc.lat ∧ lon = .fin loc.lon

/-- Spec side: the entries of one decoded source in record order, the record at position `i`
of the list getting index `idx + i`; also the draw count afterwards. -/
def entriesInOrder (w : World) (floatId : String) :
    Nat → Nat → List Profile → List FloatEntry × Nat
  | r, _, [] => ([], r)
  | r, idx, p :: ps =>
    ((newEntry w floatId r idx p).1 ::
        (entriesInOrder w floatId (newEntry w floatId r idx p).2 (idx + 1) ps).1,
      (entriesInOrder w floatId (newEntry w floatId r idx p).2 (idx + 1) ps).2)

/-- Spec side: the decoded entries of a source list: the concatenation, in source-list order,
of each retrieved and identified source's entries in record order; a source that was not
retrieved or identified contributes nothing and the later sources are still processed. -/
def decodedEntries (w : World) : Calls → List Source → List FloatEntry
  | _, [] => []
  | k, s :: rest =>
    match s.fetched, s.floatId with
    | some data, some floatId =>
      (entriesInOrder w floatId k.random 0
          (parseNetCDFData w.clock k.clock data floatId).1.profiles).1 ++
        decodedEntries w
          { random := (entriesInOrder w floatId k.random 0
              (parseNetCDFData w.clock k.clock data floatId).1.profiles).2
            clock := (parseNetCDFData w.clock k.clock data floatId).2 } rest
    | _, _ => decodedEntries w k rest

/-- A source that fails: it is not retrieved, not identified, or its header reads raise. -/
def Source.Fails (s : Source) : Prop :=
  s.fetched = none ∨ s.floatId = none ∨ ∃ data, s.fetched = some data ∧ readHeader data = none

/-- A source that yields no decoded entry: it is not retrieved, not identified, or it decodes
to zero profiles. -/
def Source.YieldsNothing (s : Source) : Prop :=
  s.fetched = none ∨ s.floatId = none ∨
    ∃ data, s.fetched = some data ∧
      ∀ (clock : Nat → Int) (c : Nat) (floatId : String),
        (parseNetCDFData clock c data floatId).1.profiles = []

/-- A source of three one-level profiles with temperatures 5, 6 and 7. -/
def sourceThree : Source :=
  { fetched := some (ncTempOnly [⟨"N_PROF", 3⟩, ⟨"N_LEVELS", 1⟩] [.fin 5, .fin 6, .fin 7])
    floatId := some "1901766" }

/-- A source whose retrieval fails. -/
def sourceFailed : Source := { fetched := none, floatId := some "1902674" }

/-- A source whose reader has no dimension list, so that decoding raises and is caught. -/
def sourceNoHeader : Source :=
  { fetched := some { dimensions := none, getDataVariable := fun _ => VarRead.absent }
    floatId := some "3902658" }

/-! ## Specification-side values for the region lookup, the decoder failures and the clock -/

/-- A named region of `getRegionName`: its bounds are tested with strict inequalities, and a
latitude bound that the source does not test is `none`. -/
structure NamedRegion where
  name : String
  latMin : Option ℚ
  latMax : Option ℚ
  lonMin : ℚ
  lonMax : ℚ

/-- The point lies within the bounds of the region. -/
def NamedRegion.contains (g : NamedRegion) (lat lon : JSNum) : Bool :=
  (match g.latMin with
    | some a => lat.gt (.fin a)
    | none => true) &&
  (match g.latMax with
    | some b => lat.lt (.fin b)
    | none => true) &&
  lon.gt (.fin g.lonMin) && lon.lt (.fin g.lonMax)

/-- The six regions of `getRegionName` with their bounds, in source order. -/
def namedRegions : List NamedRegion :=
  [ ⟨"Arabian Sea", some 10, none, 55, 75⟩,
    ⟨"Bay of Bengal", some 5, some 22, 80, 95⟩,
    ⟨"Central Indian Ocean", some (-20), some 5, 60, 90⟩,
    ⟨"Southern Indian Ocean", none, some (-20), 30, 110⟩,
    ⟨"Western Indian Ocean", some (-30), some 10, 40, 60⟩,
    ⟨"Eastern Indian Ocean", some (-35), some (-5), 90, 115⟩ ]

/-- The names of the six variables `parseNetCDFData` reads. -/
def sixVariables : List String := ["LATITUDE", "LONGITUDE", "JULD", "TEMP", "PSAL", "PRES"]

/-- A reader with valid dimensions in which reading `TEMP` raises and the other five
variables are present. -/
def ncTempRaises : NcData :=
  { dimensions := some [⟨"N_PROF", 1⟩, ⟨"N_LEVELS", 1⟩]
    getDataVariable := fun name =>
      if name = "TEMP" then VarRead.throws else VarRead.data [.fin 5] }

/-- A clock whose n-th reading is `1700000000000 + n` ms. -/
def clockTicking : Nat → Int := fun n => 1700000000000 + n

/-- A file of one one-level profile taken on the equator at longitude 80: `LATITUDE = [0]`,
`LONGITUDE = [80]`, a fill-valued date, temperature 5, salinity 35 and pressure 5. -/
def ncEquator : NcData :=
  ncFull [⟨"N_PROF", 1⟩, ⟨"N_LEVELS", 1⟩] [.fin 0] [.fin 80] [.fin 999999] [.fin 5] [.fin 35]
    [.fin 5]

/-- The source holding `ncEquator`. -/
def sourceEquator : Source := { fetched := some ncEquator, floatId := some "1901766" }

/-- The record decoded from `ncEquator`: the latitude `0` is falsy and has become `null`. -/
def profileEquator : Profile :=
  { latitude := .null, longitude := .num (.fin 80), date := .valid 0
    temperature := [.fin 5], salinity := [.fin 35], pressure := [.fin 5], depth := [.fin 5] }

/-- The sensor fields of a catalog whose entries all hold finite scalars. -/
def scalarFields (vals : List ℚ) : List Sensor :=
  vals.map fun v => Sensor.scalar (JSNum.fin v)

/-- One decoded entry whose only temperature is 150 and whose only salinity is 60: no reading
is in band. -/
def catalogOutOfBandSeries : List FloatEntry := [seriesEntry [.fin 150] [.fin 60]]

/-- One scalar-valued entry with temperature 150 and salinity 60. -/
def catalogOutOfBandScalar : List FloatEntry := [scalarEntry (.fin 150) (.fin 60)]

/-- The value of a decimal digit character. -/
def digitValue (ch : Char) : Nat := ch.toNat - 48

/-- The number a list of decimal digit characters denotes, most significant digit first. -/
def decimalValue (cs : List Char) : Nat :=
  cs.foldl (fun acc ch => acc * 10 + digitValue ch) 0

/-- The entry `e` is the one built from record `p` as the `k`-th record of float `f`: its id,
float identifier, index, type and four sequences. -/
def BuiltFrom (f : String) (k : Nat) (p : Profile) (e : FloatEntry) : Prop :=
  e.id = "ARGO_" ++ f ++ "_" ++ toString k ∧ e.floatId = some f ∧ e.profileIndex = some k ∧
    e.floatType = FloatType.Core ∧ e.temperature = Sensor.series p.temperature ∧
    e.salinity = Sensor.series p.salinity ∧ e.pressure = some (Sensor.series p.pressure) ∧
    e.depth = Sensor.series p.depth

/-- Spec side: floats built one after another, one per box of the list, the running count
starting at `count`; also the oracle call counts afterwards. -/
def buildFloats (w : World) : List Region → Nat → Calls → List FloatEntry × Calls
  | [], _, k => ([], k)
  | rg :: rest, count, k =>
    ((newFloat w rg count k).1 :: (buildFloats w rest (count + 1) (newFloat w rg count k).2).1,
      (buildFloats w rest (count + 1) (newFloat w rg count k).2).2)

/-- Spec side: the box of each successive float: every box of `oceanRegions`, in order,
repeated `floatsPerRegion` times. -/
def boxSequence : List Region :=
  oceanRegions.enum.flatMap fun ir => List.replicate (floatsPerRegion ir.1) ir.2

/-! ## Specification-side values for the last claims -/

/-- Two decoded entries: one whose only temperature is -10 and only salinity is 10, one whose
only temperature is 200 and only salinity is 60. -/
def catalogInverted : List FloatEntry :=
  [seriesEntry [.fin (-10)] [.fin 10], seriesEntry [.fin 200] [.fin 60]]

/-- The region name the sampling box of index `i` gives to a point strictly inside it. -/
def boxRegionName (i : Nat) (lat lon : ℚ) : String :=
  match i with
  | 0 => "Arabian Sea"
  | 1 => "Bay of Bengal"
  | 2 => "Central Indian Ocean"
  | 3 => "Southern Indian Ocean"
  | 4 => if lat < -20 then "Southern Indian Ocean" else "Western Indian Ocean"
  | _ => if lat < -20 ∧ lon < 110 then "Southern Indian Ocean" else "Eastern Indian Ocean"

/-- The point lies strictly inside the sampling box. -/
def Region.StrictlyInside (box : Region) (lat lon : ℚ) : Prop :=
  box.latMin < lat ∧ lat < box.latMax ∧ box.lonMin < lon ∧ lon < box.lonMax

/-- The level test of line 135 applied to `TEMP[i * nLevels + j]`. -/
def levelAccepted (h : Header) (i j : Nat) : Bool :=
  match index h.temp (i * h.nLevels + j) with
  | JSVal.num t => t.truthy && t.lt (.fin 99999) && !t.isNaN
  | _ => false

/-- Spec side: the accepted levels of profile `i`, in increasing `j`. -/
def acceptedLevels (h : Header) (i : Nat) : List Nat :=
  (List.range h.nLevels).filter (levelAccepted h i)

/-- Spec side: the temperature read at level `j` of profile `i`, `TEMP[i * nLevels + j]`. -/
def tempAt (h : Header) (i j : Nat) : JSNum := (index h.temp (i * h.nLevels + j)).toNumber

/-- The salinity the code stores at level `j` of profile `i`. -/
def salinityAt (h : Header) (i j : Nat) : JSNum :=
  validOr (index h.psal (i * h.nLevels + j)) (.fin 35)

/-- The pressure (and depth) the code stores at level `j` of profile `i`. -/
def pressureAt (h : Header) (i j : Nat) : JSNum :=
  validOr (index h.pres (i * h.nLevels + j)) (.fin ((j * 2 : Nat) : ℚ))

/-- The four sequences of a record. -/
def Profile.sequences (p : Profile) : List JSNum × List JSNum × List JSNum × List JSNum :=
  (p.temperature, p.salinity, p.pressure, p.depth)

/-- Spec side: the four sequences of the record of profile `i`: one value per accepted level. -/
def sequencesOf (h : Header) (i : Nat) : List JSNum × List JSNum × List JSNum × List JSNum :=
  ((acceptedLevels h i).map (tempAt h i), (acceptedLevels h i).map (salinityAt h i),
    (acceptedLevels h i).map (pressureAt h i), (acceptedLevels h i).map (pressureAt h i))

/-- Spec side: the profile indices that give a record, in increasing order. -/
def recordedProfiles (h : Header) : List Nat :=
  (List.range h.nProfiles).filter fun i => !(acceptedLevels h i).isEmpty

/-- Spec words of the level test: the value is present, is not NaN, is not zero and is below
99999. -/
def PresentValidTemp (v : JSVal) : Prop :=
  ∃ t : JSNum, v = JSVal.num t ∧ t.isNaN = false ∧ t ≠ JSNum.fin 0 ∧
    t.lt (.fin 99999) = true

/-- Two profiles of two levels: `TEMP = [5, 0, 7, 8]` row by row, all variables present. -/
def ncGrid : NcData :=
  ncFull [⟨"N_PROF", 2⟩, ⟨"N_LEVELS", 2⟩] [.fin 10, .fin 12] [.fin 60, .fin 62]
    [.fin 999999, .fin 999999] [.fin 5, .fin 0, .fin 7, .fin 8]
    [.fin 34, .fin 34, .fin 34, .fin 34] [.fin 1, .fin 2, .fin 1, .fin 2]

/-- The header read from `ncGrid`. -/
def headerGrid : Header :=
  { nProfiles := 2, nLevels := 2, latitude := some [.fin 10, .fin 12]
    longitude := some [.fin 60, .fin 62], juld := some [.fin 999999, .fin 999999]
    temp := some [.fin 5, .fin 0, .fin 7, .fin 8]
    psal := some [.fin 34, .fin 34, .fin 34, .fin 34]
    pres := some [.fin 1, .fin 2, .fin 1, .fin 2] }

/-- One profile of two levels with temperatures 5 and 6, salinities 0 and 34 and pressures 10
and 0. -/
def ncZeroReadings : NcData :=
  ncFull [⟨"N_PROF", 1⟩, ⟨"N_LEVELS", 2⟩] [.fin 10] [.fin 60] [.fin 999999] [.fin 5, .fin 6]
    [.fin 0, .fin 34] [.fin 10, .fin 0]

/-- A file whose two dimensions are declared with size 0, with two temperature values. -/
def ncZeroDims : NcData :=
  ncFull [⟨"N_PROF", 0⟩, ⟨"N_LEVELS", 0⟩] [.fin 10] [.fin 60] [.fin 999999] [.fin 5, .fin 6]
    [.fin 34, .fin 34] [.fin 1, .fin 2]

/-- One profile of three levels whose temperatures are 0, 0 and the sentinel 99999. -/
def ncZeroTemps : NcData :=
  ncFull [⟨"N_PROF", 1⟩, ⟨"N_LEVELS", 3⟩] [.fin 10] [.fin 60] [.fin 999999]
    [.fin 0, .fin 0, .fin 99999] [.fin 34, .fin 34, .fin 34] [.fin 1, .fin 2, .fin 3]

/-- The draw `0`. -/
def drawZero : Draw := ⟨0, le_refl 0, zero_lt_one⟩

/-- A run in which the draws number 38 and 39 (those of the twentieth candidate of the first
float) are `0` and every other draw is `0.2`. -/
def worldLate : World :=
  { random := fun n => if n = 38 ∨ n = 39 then drawZero else drawFifth
    clock := fun _ => 0, seasonal := fun _ => 0 }

/-- The value `m` is the minimum of one of the sequences and lies strictly inside the band. -/
def InBandMin (lo hi : ℚ) (seqs : List (List ℚ)) (m : ℚ) : Prop :=
  ∃ xs ∈ seqs, IsMinOf m xs ∧ lo < m ∧ m < hi

/-- The value `M` is the maximum of one of the sequences and lies strictly inside the band. -/
def InBandMax (lo hi : ℚ) (seqs : List (List ℚ)) (M : ℚ) : Prop :=
  ∃ xs ∈ seqs, IsMaxOf M xs ∧ lo < M ∧ M < hi

/-- Some non-empty sequence has all its readings strictly inside the band. -/
def HasInBandSeq (lo hi : ℚ) (seqs : List (List ℚ)) : Prop :=
  ∃ xs ∈ seqs, xs ≠ [] ∧ ∀ x ∈ xs, lo < x ∧ x < hi

/-! ## Generic lemmas -/

/-- An invariant kept by every step of a left fold holds of its result. -/
theorem foldl_invariant {α β : Type} (P : β → Prop) (f : β → α → β)
    (hf : ∀ b a, P b → P (f b a)) (l : List α) (b : β) (hb : P b) : P (l.foldl f b) := by
  induction l generalizing b with
  | nil => exact hb
  | cons a l ih => exact ih (f b a) (hf b a hb)

/-! ## The decoder: alignment and accepted temperatures -/

theorem levelStep_aligned (h : Header) (i : Nat) (p : Profile) (j : Nat) (hp : p.Aligned) :
    (levelStep h i p j).Aligned := by
  obtain ⟨h1, h2, h3⟩ := hp
  simp only [levelStep]
  split
  · split
    · refine ⟨?_, ?_, ?_⟩ <;> simp [h1, h2, h3]
    · exact ⟨h1, h2, h3⟩
  · exact ⟨h1, h2, h3⟩

theorem accepted_of_test (t : JSNum)
    (ht : (t.truthy && t.lt (.fin 99999) && !t.isNaN) = true) : AcceptedTemp t := by
  cases t with
  | fin q =>
    simp [JSNum.truthy, JSNum.lt, JSNum.isNaN] at ht
    exact Or.inl ⟨q, rfl, ht.1, ht.2⟩
  | nan => simp [JSNum.truthy] at ht
  | posInf => simp [JSNum.lt] at ht
  | negInf => exact Or.inr rfl

theorem levelStep_accepted (h : Header) (i : Nat) (p : Profile) (j : Nat)
    (hp : ∀ t ∈ p.temperature, AcceptedTemp t) :
    ∀ t ∈ (levelStep h i p j).temperature, AcceptedTemp t := by
  simp only [levelStep]
  split
  · split
    · next ht =>
      intro u hu
      simp only [List.mem_append, List.mem_singleton] at hu
      rcases hu with hu | hu
      · exact hp u hu
      · subst hu; exact accepted_of_test u ht
    · exact hp
  · exact hp

theorem profileStep_good (clock : Nat → Int) (h : Header) (st : List Profile × Nat) (i : Nat)
    (hst : ∀ p ∈ st.1, p.Good) : ∀ p ∈ (profileStep clock h st i).1, p.Good := by
  unfold profileStep
  simp only []
  split
  · next hlen =>
    intro p hp
    simp only [List.mem_append, List.mem_singleton] at hp
    rcases hp with hp | hp
    · exact hst p hp
    · subst hp
      refine ⟨?_, ?_, ?_⟩
      · exact foldl_invariant Profile.Aligned _ (fun b a hb => levelStep_aligned h i b a hb) _ _
          ⟨rfl, rfl, rfl⟩
      · intro hnil
        rw [hnil] at hlen
        simp at hlen
      · exact foldl_invariant (fun q : Profile => ∀ t ∈ q.temperature, AcceptedTemp t) _
          (fun b a hb => levelStep_accepted h i b a hb) _ _ (by simp)
  · exact hst

theorem parseNetCDFData_good (clock : Nat → Int) (c : Nat) (ncData : NcData) (floatId : String) :
    ∀ p ∈ (parseNetCDFData clock c ncData floatId).1.profiles, p.Good := by
  unfold parseNetCDFData
  cases readHeader ncData with
  | none => simp
  | some h =>
    simp only []
    exact foldl_invariant (fun st : List Profile × Nat => ∀ p ∈ st.1, p.Good) _
      (fun b a hb => profileStep_good clock h b a hb) _ _ (by simp)

/-- C1: every record returned by `parseNetCDFData`, whatever the dimensions and the six
variable reads, has temperature, salinity, pressure and depth sequences of one length. -/
theorem parseNetCDFData_lengths_equal (clock : Nat → Int) (c : Nat) (ncData : NcData)
    (floatId : String) (p : Profile)
    (hp : p ∈ (parseNetCDFData clock c ncData floatId).1.profiles) :
    p.temperature.length = p.salinity.length ∧ p.temperature.length = p.pressure.length ∧
      p.temperature.length = p.depth.length := by
  obtain ⟨⟨h1, h2, h3⟩, -, -⟩ := parseNetCDFData_good clock c ncData floatId p hp
  exact ⟨h1, h1.trans h2, (h1.trans h2).trans h3⟩

theorem parseNetCDFData_twoLevels :
    (parseNetCDFData clockZero 0 ncTwoLevels "1901766").1.profiles = [profileTwoLevels] := by
  decide

/-- Witness for C1 on a file with one profile of two levels. -/
theorem parseNetCDFData_lengths_equal_witness :
    profileTwoLevels ∈ (parseNetCDFData clockZero 0 ncTwoLevels "1901766").1.profiles ∧
    (profileTwoLevels.temperature.length = profileTwoLevels.salinity.length ∧
      profileTwoLevels.temperature.length = profileTwoLevels.pressure.length ∧
      profileTwoLevels.temperature.length = profileTwoLevels.depth.length) :=
  ⟨by rw [parseNetCDFData_twoLevels]; exact List.mem_singleton.mpr rfl,
   parseNetCDFData_lengths_equal clockZero 0 ncTwoLevels "1901766" profileTwoLevels
     (by rw [parseNetCDFData_twoLevels]; exact List.mem_singleton.mpr rfl)⟩

theorem parseNetCDFData_negInf :
    (parseNetCDFData clockZero 0 ncNegInf "1901766").1.profiles = [profileNegInf] := by
  decide

/-- C2 as stated fails: a `TEMP` array holding `-Infinity` passes the level test
(`-Infinity` is truthy, below 99999 and not NaN), so a returned record stores a temperature
that is not finite. -/
theorem parseNetCDFData_temperature_finite_fails :
    ¬ (∀ p ∈ (parseNetCDFData clockZero 0 ncNegInf "1901766").1.profiles,
        p.temperature ≠ [] ∧
        ∀ t ∈ p.temperature, t.isFinite = true ∧ t.lt (.fin 99999) = true) := by
  rw [parseNetCDFData_negInf]
  intro h
  have h1 := (h profileNegInf (List.mem_singleton.mpr rfl)).2 .negInf
    (List.mem_singleton.mpr rfl)
  exact absurd h1.1 (by decide)

/-- C2 amended: every temperature stored in a returned record is below 99999, is not NaN,
is not zero, and is finite unless it is `-Infinity`; no returned record has an empty
temperature sequence. -/
theorem parseNetCDFData_temperature_accepted (clock : Nat → Int) (c : Nat) (ncData : NcData)
    (floatId : String) (p : Profile)
    (hp : p ∈ (parseNetCDFData clock c ncData floatId).1.profiles) :
    p.temperature ≠ [] ∧
    ∀ t ∈ p.temperature,
      t.lt (.fin 99999) = true ∧ t.isNaN = false ∧ t ≠ .fin 0 ∧
        (t.isFinite = true ∨ t = .negInf) := by
  obtain ⟨-, hne, hacc⟩ := parseNetCDFData_good clock c ncData floatId p hp
  refine ⟨hne, fun t ht => ?_⟩
  rcases hacc t ht with ⟨q, rfl, hq0, hq⟩ | rfl
  · refine ⟨by simpa [JSNum.lt] using hq, rfl, ?_, Or.inl rfl⟩
    intro h
    exact hq0 (JSNum.fin.inj h)
  · exact ⟨rfl, rfl, by simp, Or.inr rfl⟩

/-- Witness for the amended C2 on the file whose only temperature is `-Infinity`. -/
theorem parseNetCDFData_temperature_accepted_witness :
    profileNegInf ∈ (parseNetCDFData clockZero 0 ncNegInf "1901766").1.profiles ∧
    (profileNegInf.temperature ≠ [] ∧
     ∀ t ∈ profileNegInf.temperature,
      t.lt (.fin 99999) = true ∧ t.isNaN = false ∧ t ≠ .fin 0 ∧
        (t.isFinite = true ∨ t = .negInf)) :=
  ⟨by rw [parseNetCDFData_negInf]; exact List.mem_singleton.mpr rfl,
   parseNetCDFData_temperature_accepted clockZero 0 ncNegInf "1901766" profileNegInf
     (by rw [parseNetCDFData_negInf]; exact List.mem_singleton.mpr rfl)⟩

/-! ## The aggregator: what the fold computes -/

theorem foldl_statStep_tempRange (cat : List FloatEntry) (s : Stats) :
    (cat.foldl statStep s).tempRange =
      (cat.map (fun f => f.temperature)).foldl (absorb (.fin (-5)) (.fin 100)) s.tempRange := by
  induction cat generalizing s with
  | nil => rfl
  | cons f cat ih => simp only [List.foldl_cons, List.map_cons]; rw [ih]; rfl

theorem foldl_statStep_salinityRange (cat : List FloatEntry) (s : Stats) :
    (cat.foldl statStep s).salinityRange =
      (cat.map (fun f => f.salinity)).foldl (absorb (.fin 20) (.fin 50)) s.salinityRange := by
  induction cat generalizing s with
  | nil => rfl
  | cons f cat ih => simp only [List.foldl_cons, List.map_cons]; rw [ih]; rfl

theorem getDataStatistics_tempRange (cat : List FloatEntry) :
    (getDataStatistics cat).tempRange =
      if (foldRange (.fin (-5)) (.fin 100) (cat.map fun f => f.temperature)).min.strictEq .posInf
      then { min := .fin 2, max := .fin 29 }
      else foldRange (.fin (-5)) (.fin 100) (cat.map fun f => f.temperature) := by
  simp only [getDataStatistics, foldRange]
  split <;> split <;> simp_all [foldl_statStep_tempRange]

theorem getDataStatistics_salinityRange (cat : List FloatEntry) :
    (getDataStatistics cat).salinityRange =
      if (foldRange (.fin 20) (.fin 50) (cat.map fun f => f.salinity)).min.strictEq .posInf
      then { min := .fin 34.5, max := .fin 35.5 }
      else foldRange (.fin 20) (.fin 50) (cat.map fun f => f.salinity) := by
  simp only [getDataStatistics, foldRange]
  split <;> split <;> simp_all [foldl_statStep_salinityRange]

theorem foldl_min_isMinOf (a : ℚ) (xs : List ℚ) : IsMinOf (xs.foldl min a) (a :: xs) := by
  induction xs generalizing a with
  | nil => exact ⟨List.mem_singleton.mpr rfl, fun y hy => by simp at hy; simp [hy]⟩
  | cons b xs ih =>
    obtain ⟨hmem, hle⟩ := ih (min a b)
    simp only [List.foldl_cons]
    refine ⟨?_, ?_⟩
    · rcases List.mem_cons.mp hmem with h | h
      · rw [h]
        rcases min_choice a b with h' | h' <;> rw [h'] <;> simp
      · exact List.mem_cons_of_mem _ (List.mem_cons_of_mem _ h)
    · intro y hy
      rcases List.mem_cons.mp hy with h | h
      · rw [h]; exact le_trans (hle _ (List.mem_cons_self _ _)) (min_le_left a b)
      · rcases List.mem_cons.mp h with h | h
        · rw [h]; exact le_trans (hle _ (List.mem_cons_self _ _)) (min_le_right a b)
        · exact hle y (List.mem_cons_of_mem _ h)

theorem foldl_max_isMaxOf (a : ℚ) (xs : List ℚ) : IsMaxOf (xs.foldl max a) (a :: xs) := by
  induction xs generalizing a with
  | nil => exact ⟨List.mem_singleton.mpr rfl, fun y hy => by simp at hy; simp [hy]⟩
  | cons b xs ih =>
    obtain ⟨hmem, hle⟩ := ih (max a b)
    simp only [List.foldl_cons]
    refine ⟨?_, ?_⟩
    · rcases List.mem_cons.mp hmem with h | h
      · rw [h]
        rcases max_choice a b with h' | h' <;> rw [h'] <;> simp
      · exact List.mem_cons_of_mem _ (List.mem_cons_of_mem _ h)
    · intro y hy
      rcases List.mem_cons.mp hy with h | h
      · rw [h]; exact le_trans (le_max_left a b) (hle _ (List.mem_cons_self _ _))
      · rcases List.mem_cons.mp h with h | h
        · rw [h]; exact le_trans (le_max_right a b) (hle _ (List.mem_cons_self _ _))
        · exact hle y (List.mem_cons_of_mem _ h)

theorem isMinOf_unique {m m' : ℚ} {xs : List ℚ} (h : IsMinOf m xs) (h' : IsMinOf m' xs) :
    m = m' :=
  le_antisymm (h.2 m' h'.1) (h'.2 m h.1)

theorem isMaxOf_unique {M M' : ℚ} {xs : List ℚ} (h : IsMaxOf M xs) (h' : IsMaxOf M' xs) :
    M = M' :=
  le_antisymm (h'.2 M h.1) (h.2 M' h'.1)

theorem min2_fin (a b : ℚ) : JSNum.min2 (.fin a) (.fin b) = .fin (min a b) := by
  simp only [JSNum.min2, JSNum.lt]
  by_cases h : b < a
  · simp [h, min_eq_right (le_of_lt h)]
  · simp [h, min_eq_left (not_lt.mp h)]

theorem max2_fin (a b : ℚ) : JSNum.max2 (.fin a) (.fin b) = .fin (max a b) := by
  simp only [JSNum.max2, JSNum.lt]
  by_cases h : a < b
  · simp [h, max_eq_right (le_of_lt h)]
  · simp [h, max_eq_left (not_lt.mp h)]

theorem foldl_min2_fin (a : ℚ) (xs : List ℚ) :
    (xs.map JSNum.fin).foldl JSNum.min2 (.fin a) = .fin (xs.foldl min a) := by
  induction xs generalizing a with
  | nil => rfl
  | cons b xs ih => simp only [List.map_cons, List.foldl_cons, min2_fin, ih]

theorem foldl_max2_fin (a : ℚ) (xs : List ℚ) :
    (xs.map JSNum.fin).foldl JSNum.max2 (.fin a) = .fin (xs.foldl max a) := by
  induction xs generalizing a with
  | nil => rfl
  | cons b xs ih => simp only [List.map_cons, List.foldl_cons, max2_fin, ih]

theorem minOf_fin_cons (x : ℚ) (xs : List ℚ) :
    JSNum.minOf ((x :: xs).map JSNum.fin) = .fin (xs.foldl min x) := by
  simp only [JSNum.minOf, List.map_cons, List.foldl_cons]
  have h : JSNum.min2 .posInf (.fin x) = .fin x := by simp [JSNum.min2, JSNum.lt]
  rw [h, foldl_min2_fin]

theorem maxOf_fin_cons (x : ℚ) (xs : List ℚ) :
    JSNum.maxOf ((x :: xs).map JSNum.fin) = .fin (xs.foldl max x) := by
  simp only [JSNum.maxOf, List.map_cons, List.foldl_cons]
  have h : JSNum.max2 .negInf (.fin x) = .fin x := by simp [JSNum.max2, JSNum.lt]
  rw [h, foldl_max2_fin]

/-- What `absorb` does with a non-empty sequence of finite readings. -/
theorem absorb_series_cons (lo hi : ℚ) (rng : Range) (x : ℚ) (xs : List ℚ) :
    absorb (.fin lo) (.fin hi) rng (.series ((x :: xs).map JSNum.fin)) =
      { min := if lo < xs.foldl min x then JSNum.min2 rng.min (.fin (xs.foldl min x)) else rng.min
        max := if xs.foldl max x < hi then JSNum.max2 rng.max (.fin (xs.foldl max x))
               else rng.max } := by
  have hmin := minOf_fin_cons x xs
  have hmax := maxOf_fin_cons x xs
  simp only [List.map_cons] at hmin hmax
  simp only [absorb, List.map_cons, hmin, hmax, JSNum.gt, JSNum.lt]
  by_cases h1 : xs.foldl max x < hi <;> by_cases h2 : lo < xs.foldl min x <;> simp [h1, h2]

theorem gatedMin_snoc (lo : ℚ) (l : List (List ℚ)) (xs : List ℚ) (m : ℚ) :
    GatedMin lo (l ++ [xs]) m ↔ GatedMin lo l m ∨ (IsMinOf m xs ∧ lo < m) := by
  constructor
  · rintro ⟨ys, hys, h⟩
    rcases List.mem_append.mp hys with h' | h'
    · exact Or.inl ⟨ys, h', h⟩
    · rw [List.mem_singleton.mp h'] at h; exact Or.inr h
  · rintro (⟨ys, hys, h⟩ | h)
    · exact ⟨ys, List.mem_append_left _ hys, h⟩
    · exact ⟨xs, List.mem_append_right _ (List.mem_singleton.mpr rfl), h⟩

theorem gatedMax_snoc (hi : ℚ) (l : List (List ℚ)) (xs : List ℚ) (M : ℚ) :
    GatedMax hi (l ++ [xs]) M ↔ GatedMax hi l M ∨ (IsMaxOf M xs ∧ M < hi) := by
  constructor
  · rintro ⟨ys, hys, h⟩
    rcases List.mem_append.mp hys with h' | h'
    · exact Or.inl ⟨ys, h', h⟩
    · rw [List.mem_singleton.mp h'] at h; exact Or.inr h
  · rintro (⟨ys, hys, h⟩ | h)
    · exact ⟨ys, List.mem_append_left _ hys, h⟩
    · exact ⟨xs, List.mem_append_right _ (List.mem_singleton.mpr rfl), h⟩

theorem minInv_snoc_skip (lo : ℚ) (l : List (List ℚ)) (xs : List ℚ) (v : JSNum)
    (hv : MinInv lo l v) (hxs : ∀ m, IsMinOf m xs → ¬ lo < m) : MinInv lo (l ++ [xs]) v := by
  have key : ∀ m, GatedMin lo (l ++ [xs]) m ↔ GatedMin lo l m := fun m => by
    rw [gatedMin_snoc]
    exact ⟨fun h => h.elim id (fun h' => absurd h'.2 (hxs m h'.1)), Or.inl⟩
  rcases hv with ⟨h1, h2⟩ | ⟨m, h1, h2, h3⟩
  · exact Or.inl ⟨h1, fun m hm => h2 m ((key m).mp hm)⟩
  · exact Or.inr ⟨m, h1, (key m).mpr h2, fun a ha => h3 a ((key a).mp ha)⟩

theorem maxInv_snoc_skip (hi : ℚ) (l : List (List ℚ)) (xs : List ℚ) (v : JSNum)
    (hv : MaxInv hi l v) (hxs : ∀ M, IsMaxOf M xs → ¬ M < hi) : MaxInv hi (l ++ [xs]) v := by
  have key : ∀ M, GatedMax hi (l ++ [xs]) M ↔ GatedMax hi l M := fun M => by
    rw [gatedMax_snoc]
    exact ⟨fun h => h.elim id (fun h' => absurd h'.2 (hxs M h'.1)), Or.inl⟩
  rcases hv with ⟨h1, h2⟩ | ⟨M, h1, h2, h3⟩
  · exact Or.inl ⟨h1, fun M hM => h2 M ((key M).mp hM)⟩
  · exact Or.inr ⟨M, h1, (key M).mpr h2, fun a ha => h3 a ((key a).mp ha)⟩

theorem minInv_snoc_take (lo : ℚ) (l : List (List ℚ)) (xs : List ℚ) (v : JSNum) (mm : ℚ)
    (hv : MinInv lo l v) (hmm : IsMinOf mm xs) (hlo : lo < mm) :
    MinInv lo (l ++ [xs]) (JSNum.min2 v (.fin mm)) := by
  have hnew : GatedMin lo (l ++ [xs]) mm := (gatedMin_snoc lo l xs mm).mpr (Or.inr ⟨hmm, hlo⟩)
  rcases hv with ⟨h1, h2⟩ | ⟨m, h1, h2, h3⟩
  · refine Or.inr ⟨mm, by rw [h1]; simp [JSNum.min2, JSNum.lt], hnew, fun a ha => ?_⟩
    rcases (gatedMin_snoc lo l xs a).mp ha with h | h
    · exact absurd h (h2 a)
    · exact le_of_eq (isMinOf_unique hmm h.1)
  · refine Or.inr ⟨min m mm, by rw [h1, min2_fin], ?_, fun a ha => ?_⟩
    · rcases min_choice m mm with h | h <;> rw [h]
      · exact (gatedMin_snoc lo l xs m).mpr (Or.inl h2)
      · exact hnew
    · rcases (gatedMin_snoc lo l xs a).mp ha with h | h
      · exact le_trans (min_le_left _ _) (h3 a h)
      · exact le_trans (min_le_right _ _) (le_of_eq (isMinOf_unique hmm h.1))

theorem maxInv_snoc_take (hi : ℚ) (l : List (List ℚ)) (xs : List ℚ) (v : JSNum) (MM : ℚ)
    (hv : MaxInv hi l v) (hMM : IsMaxOf MM xs) (hhi : MM < hi) :
    MaxInv hi (l ++ [xs]) (JSNum.max2 v (.fin MM)) := by
  have hnew : GatedMax hi (l ++ [xs]) MM := (gatedMax_snoc hi l xs MM).mpr (Or.inr ⟨hMM, hhi⟩)
  rcases hv with ⟨h1, h2⟩ | ⟨M, h1, h2, h3⟩
  · refine Or.inr ⟨MM, by rw [h1]; simp [JSNum.max2, JSNum.lt], hnew, fun a ha => ?_⟩
    rcases (gatedMax_snoc hi l xs a).mp ha with h | h
    · exact absurd h (h2 a)
    · exact le_of_eq (isMaxOf_unique h.1 hMM)
  · refine Or.inr ⟨max M MM, by rw [h1, max2_fin], ?_, fun a ha => ?_⟩
    · rcases max_choice M MM with h | h <;> rw [h]
      · exact (gatedMax_snoc hi l xs M).mpr (Or.inl h2)
      · exact hnew
    · rcases (gatedMax_snoc hi l xs a).mp ha with h | h
      · exact le_trans (h3 a h) (le_max_left _ _)
      · exact le_trans (le_of_eq (isMaxOf_unique h.1 hMM)) (le_max_right _ _)

/-- Over sequences of finite readings the fold keeps the least gated minimum and the greatest
gated maximum. -/
theorem foldRange_series (lo hi : ℚ) (seqs : List (List ℚ)) :
    MinInv lo seqs (foldRange (.fin lo) (.fin hi) (seriesFields seqs)).min ∧
    MaxInv hi seqs (foldRange (.fin lo) (.fin hi) (seriesFields seqs)).max := by
  induction seqs using List.reverseRecOn with
  | nil =>
    refine ⟨Or.inl ⟨rfl, ?_⟩, Or.inl ⟨rfl, ?_⟩⟩
    · rintro m ⟨xs, hxs, -⟩; simp at hxs
    · rintro m ⟨xs, hxs, -⟩; simp at hxs
  | append_singleton l xs ih =>
    obtain ⟨ihmin, ihmax⟩ := ih
    have hstep : foldRange (.fin lo) (.fin hi) (seriesFields (l ++ [xs])) =
        absorb (.fin lo) (.fin hi) (foldRange (.fin lo) (.fin hi) (seriesFields l))
          (.series (xs.map JSNum.fin)) := by
      simp [foldRange, seriesFields, List.foldl_append]
    rw [hstep]
    cases xs with
    | nil =>
      have hno : ∀ m, IsMinOf m [] → ¬ lo < m := fun m hm => by simp [IsMinOf] at hm
      have hno' : ∀ M, IsMaxOf M [] → ¬ M < hi := fun M hM => by simp [IsMaxOf] at hM
      exact ⟨minInv_snoc_skip lo l [] _ ihmin hno, maxInv_snoc_skip hi l [] _ ihmax hno'⟩
    | cons x t =>
      rw [absorb_series_cons]
      have hmm := foldl_min_isMinOf x t
      have hMM := foldl_max_isMaxOf x t
      refine ⟨?_, ?_⟩
      · by_cases h : lo < t.foldl min x
        · simp only [h, if_true]
          exact minInv_snoc_take lo l _ _ _ ihmin hmm h
        · simp only [h, if_false]
          exact minInv_snoc_skip lo l _ _ ihmin
            (fun m hm => by rw [isMinOf_unique hm hmm]; exact h)
      · by_cases h : t.foldl max x < hi
        · simp only [h, if_true]
          exact maxInv_snoc_take hi l _ _ _ ihmax hMM h
        · simp only [h, if_false]
          exact maxInv_snoc_skip hi l _ _ ihmax
            (fun M hM => by rw [isMaxOf_unique hM hMM]; exact h)

/-- C3 as stated fails: with the readings 5, 31, -10 and 150 in one sequence the sequence
maximum 150 and minimum -10 both fail the band check, nothing is absorbed, and the default range
2 to 29 is reported instead of 5 to 31. -/
theorem getDataStatistics_band_filter_fails :
    (getDataStatistics catalogOneSeries).tempRange = { min := .fin 2, max := .fin 29 } ∧
    (getDataStatistics catalogOneSeries).tempRange ≠ { min := .fin 5, max := .fin 31 } := by
  decide

/-- The same four readings in four one-element sequences do report 5 to 31. -/
theorem getDataStatistics_fourSeries :
    (getDataStatistics catalogFourSeries).tempRange = { min := .fin 5, max := .fin 31 } := by
  decide

/-- The same four readings as scalars are absorbed without any band check. -/
theorem getDataStatistics_fourScalars :
    (getDataStatistics catalogFourScalars).tempRange = { min := .fin (-10), max := .fin 150 } := by
  decide

theorem tempRange_of_series (cat : List FloatEntry) (temps : List (List ℚ))
    (htemps : cat.map (fun f => f.temperature) = seriesFields temps)
    (hmin : ∃ m, GatedMin (-5) temps m) (hmax : ∃ M, GatedMax 100 temps M) :
    ∃ m M, (getDataStatistics cat).tempRange = { min := .fin m, max := .fin M } ∧
      GatedMin (-5) temps m ∧ (∀ a, GatedMin (-5) temps a → m ≤ a) ∧
      GatedMax 100 temps M ∧ (∀ b, GatedMax 100 temps b → b ≤ M) := by
  obtain ⟨h1, h2⟩ := foldRange_series (-5) 100 temps
  rw [← htemps] at h1 h2
  rcases h1 with ⟨-, hno⟩ | ⟨m, hm, hg, hl⟩
  · exact absurd hmin.choose_spec (hno _)
  rcases h2 with ⟨-, hno⟩ | ⟨M, hM, hG, hL⟩
  · exact absurd hmax.choose_spec (hno _)
  refine ⟨m, M, ?_, hg, hl, hG, hL⟩
  rw [getDataStatistics_tempRange]
  generalize foldRange (.fin (-5)) (.fin 100) (cat.map fun f => f.temperature) = r at hm hM
  obtain ⟨rmin, rmax⟩ := r
  simp only at hm hM
  subst hm hM
  simp [JSNum.strictEq]

theorem salinityRange_of_series (cat : List FloatEntry) (sals : List (List ℚ))
    (hsals : cat.map (fun f => f.salinity) = seriesFields sals)
    (hmin : ∃ m, GatedMin 20 sals m) (hmax : ∃ M, GatedMax 50 sals M) :
    ∃ m M, (getDataStatistics cat).salinityRange = { min := .fin m, max := .fin M } ∧
      GatedMin 20 sals m ∧ (∀ a, GatedMin 20 sals a → m ≤ a) ∧
      GatedMax 50 sals M ∧ (∀ b, GatedMax 50 sals b → b ≤ M) := by
  obtain ⟨h1, h2⟩ := foldRange_series 20 50 sals
  rw [← hsals] at h1 h2
  rcases h1 with ⟨-, hno⟩ | ⟨m, hm, hg, hl⟩
  · exact absurd hmin.choose_spec (hno _)
  rcases h2 with ⟨-, hno⟩ | ⟨M, hM, hG, hL⟩
  · exact absurd hmax.choose_spec (hno _)
  refine ⟨m, M, ?_, hg, hl, hG, hL⟩
  rw [getDataStatistics_salinityRange]
  generalize foldRange (.fin 20) (.fin 50) (cat.map fun f => f.salinity) = r at hm hM
  obtain ⟨rmin, rmax⟩ := r
  simp only at hm hM
  subst hm hM
  simp [JSNum.strictEq]

/-- When some sequence lies wholly in the band, the least minimum that passes the lower gate
and the greatest maximum that passes the upper gate are both inside the band, are the least
in-band minimum and the greatest in-band maximum, and are in order. -/
theorem inBand_of_gated (lo hi : ℚ) (seqs : List (List ℚ)) (hband : HasInBandSeq lo hi seqs)
    (m M : ℚ) (hg : GatedMin lo seqs m) (hl : ∀ a, GatedMin lo seqs a → m ≤ a)
    (hG : GatedMax hi seqs M) (hL : ∀ b, GatedMax hi seqs b → b ≤ M) :
    InBandMin lo hi seqs m ∧ (∀ a, InBandMin lo hi seqs a → m ≤ a) ∧
    InBandMax lo hi seqs M ∧ (∀ b, InBandMax lo hi seqs b → b ≤ M) ∧ m ≤ M := by
  obtain ⟨xs, hxs, hne, hall⟩ := hband
  cases xs with
  | nil => exact absurd rfl hne
  | cons x t =>
    have hm0 := foldl_min_isMinOf x t
    have hM0 := foldl_max_isMaxOf x t
    have h1 : m ≤ t.foldl min x := hl _ ⟨_, hxs, hm0, (hall _ hm0.1).1⟩
    have h2 : t.foldl max x ≤ M := hL _ ⟨_, hxs, hM0, (hall _ hM0.1).2⟩
    have h3 : t.foldl min x ≤ t.foldl max x := hM0.2 _ hm0.1
    have h4 : t.foldl max x < hi := (hall _ hM0.1).2
    have h5 : lo < t.foldl min x := (hall _ hm0.1).1
    obtain ⟨ys, hys, hymin, hylo⟩ := hg
    obtain ⟨zs, hzs, hzmax, hzhi⟩ := hG
    refine ⟨⟨ys, hys, hymin, hylo, by linarith⟩, ?_, ⟨zs, hzs, hzmax, by linarith, hzhi⟩, ?_,
      by linarith⟩
    · rintro a ⟨as, has, hamin, halo, -⟩
      exact hl a ⟨as, has, hamin, halo⟩
    · rintro b ⟨bs, hbs, hbmax, -, hbhi⟩
      exact hL b ⟨bs, hbs, hbmax, hbhi⟩

theorem gated_of_hasInBandSeq (lo hi : ℚ) (seqs : List (List ℚ))
    (hband : HasInBandSeq lo hi seqs) :
    (∃ m, GatedMin lo seqs m) ∧ (∃ M, GatedMax hi seqs M) := by
  obtain ⟨xs, hxs, hne, hall⟩ := hband
  cases xs with
  | nil => exact absurd rfl hne
  | cons x t =>
    have hm0 := foldl_min_isMinOf x t
    have hM0 := foldl_max_isMaxOf x t
    exact ⟨⟨_, _, hxs, hm0, (hall _ hm0.1).1⟩, ⟨_, _, hxs, hM0, (hall _ hM0.1).2⟩⟩

/-- C3 amended: `getDataStatistics` gates each sequence by its extrema, not each reading.
Over a catalog of sequence-valued entries with finite readings in which some non-empty
sequence has all its readings strictly between -5 and 100, the reported temperature min is
the least of the sequence minima lying strictly between -5 and 100 and the reported max is
the greatest of the sequence maxima lying strictly between -5 and 100, so that both are in
band and the min is at most the max; salinity likewise with the band 20 to 50. -/
theorem getDataStatistics_inBand_extrema (cat : List FloatEntry) (temps sals : List (List ℚ))
    (htemps : cat.map (fun f => f.temperature) = seriesFields temps)
    (hsals : cat.map (fun f => f.salinity) = seriesFields sals) :
    (HasInBandSeq (-5) 100 temps →
      ∃ m M, (getDataStatistics cat).tempRange = { min := .fin m, max := .fin M } ∧
        InBandMin (-5) 100 temps m ∧ (∀ a, InBandMin (-5) 100 temps a → m ≤ a) ∧
        InBandMax (-5) 100 temps M ∧ (∀ b, InBandMax (-5) 100 temps b → b ≤ M) ∧ m ≤ M) ∧
    (HasInBandSeq 20 50 sals →
      ∃ m M, (getDataStatistics cat).salinityRange = { min := .fin m, max := .fin M } ∧
        InBandMin 20 50 sals m ∧ (∀ a, InBandMin 20 50 sals a → m ≤ a) ∧
        InBandMax 20 50 sals M ∧ (∀ b, InBandMax 20 50 sals b → b ≤ M) ∧ m ≤ M) := by
  constructor
  · intro hband
    obtain ⟨hmin, hmax⟩ := gated_of_hasInBandSeq (-5) 100 temps hband
    obtain ⟨m, M, hr, hg, hl, hG, hL⟩ := tempRange_of_series cat temps htemps hmin hmax
    exact ⟨m, M, hr, inBand_of_gated (-5) 100 temps hband m M hg hl hG hL⟩
  · intro hband
    obtain ⟨hmin, hmax⟩ := gated_of_hasInBandSeq 20 50 sals hband
    obtain ⟨m, M, hr, hg, hl, hG, hL⟩ := salinityRange_of_series cat sals hsals hmin hmax
    exact ⟨m, M, hr, inBand_of_gated 20 50 sals hband m M hg hl hG hL⟩

theorem hasInBandSeq_fourSeries : HasInBandSeq (-5) 100 [[5], [31], [-10], [150]] :=
  ⟨[5], by simp, by simp, by intro x hx; rw [List.mem_singleton.mp hx]; norm_num⟩

theorem hasInBandSeq_salinity : HasInBandSeq 20 50 [[35], [35], [35], [35]] :=
  ⟨[35], by simp, by simp, by intro x hx; rw [List.mem_singleton.mp hx]; norm_num⟩

/-- Witness for the amended C3: the readings 5, 31, -10 and 150 in four one-element
sequences, of which `[5]` and `[31]` lie in the band; the salinities are all 35. -/
theorem getDataStatistics_inBand_extrema_witness :
    (catalogFourSeries.map (fun f => f.temperature)
        = seriesFields [[5], [31], [-10], [150]]) ∧
    (catalogFourSeries.map (fun f => f.salinity)
        = seriesFields [[35], [35], [35], [35]]) ∧
    HasInBandSeq (-5) 100 [[5], [31], [-10], [150]] ∧
    HasInBandSeq 20 50 [[35], [35], [35], [35]] ∧
    (∃ m M, (getDataStatistics catalogFourSeries).tempRange = { min := .fin m, max := .fin M } ∧
      InBandMin (-5) 100 [[5], [31], [-10], [150]] m ∧
      (∀ a, InBandMin (-5) 100 [[5], [31], [-10], [150]] a → m ≤ a) ∧
      InBandMax (-5) 100 [[5], [31], [-10], [150]] M ∧
      (∀ b, InBandMax (-5) 100 [[5], [31], [-10], [150]] b → b ≤ M) ∧ m ≤ M) ∧
    (∃ m M,
      (getDataStatistics catalogFourSeries).salinityRange = { min := .fin m, max := .fin M } ∧
      InBandMin 20 50 [[35], [35], [35], [35]] m ∧
      (∀ a, InBandMin 20 50 [[35], [35], [35], [35]] a → m ≤ a) ∧
      InBandMax 20 50 [[35], [35], [35], [35]] M ∧
      (∀ b, InBandMax 20 50 [[35], [35], [35], [35]] b → b ≤ M) ∧ m ≤ M) :=
  ⟨rfl, rfl, hasInBandSeq_fourSeries, hasInBandSeq_salinity,
   (getDataStatistics_inBand_extrema catalogFourSeries [[5], [31], [-10], [150]]
      [[35], [35], [35], [35]] rfl rfl).1 hasInBandSeq_fourSeries,
   (getDataStatistics_inBand_extrema catalogFourSeries [[5], [31], [-10], [150]]
      [[35], [35], [35], [35]] rfl rfl).2 hasInBandSeq_salinity⟩

/-- C4 fails on the code: one decoded entry whose only temperature is 150 leaves the running
max at `-Infinity` (150 is not below 100) while the running min becomes 150, so the default
is not applied and the reported max is `-Infinity`. -/
theorem getDataStatistics_reports_infinite_max :
    (getDataStatistics [seriesEntry [.fin 150] [.fin 35]]).tempRange
      = { min := .fin 150, max := .negInf } := by
  decide

/-! ## The calendar conversion -/

/-- C5 fails on the code: a day count of exactly `0` is falsy, so `julianToDate(0)` takes the
`new Date()` branch and returns the clock reading (advancing the clock), not the fixed epoch
1950-01-01T00:00:00Z. -/
theorem julianToDate_zero_reads_clock (clock : Nat → Int) (c : Nat) :
    julianToDate clock c (.num (.fin 0)) = (.valid (clock c), c + 1) := by
  simp [julianToDate, JSVal.truthy, JSNum.truthy]

/-- Away from `0`: a finite non-zero day count of at most 99999 whose instant is in the range
of `Date` gives the epoch plus `v * 86400000` ms, truncated to whole milliseconds, without
reading the clock. -/
theorem julianToDate_of_day (clock : Nat → Int) (c : Nat) (v : ℚ) (h0 : v ≠ 0)
    (hv : v ≤ 99999) (hr : |(epoch1950 : ℚ) + v * 86400000| ≤ 8640000000000000) :
    julianToDate clock c (.num (.fin v)) =
      (.valid (truncate ((epoch1950 : ℚ) + v * 86400000)), c) := by
  have hv' : ¬ (99999 < v) := not_lt.mpr hv
  have hr' : ¬ (|(epoch1950 : ℚ) + v * 86400000| > 8640000000000000) := not_lt.mpr hr
  simp [julianToDate, JSVal.truthy, JSNum.truthy, JSVal.gt, JSNum.gt, JSNum.lt, JSVal.toNumber,
    JSNum.mul, JSNum.add, JSDate.ofNumber, h0, hv', hr']

/-! ## Land exclusion -/

theorem ite_false_else (c b : Bool) : (if c = true then false else b) = (!c && b) := by
  cases c <;> simp

/-- C10: `isDeepOcean(lat, lon)` is false exactly when the point lies strictly inside at
least one of the ten exclusion rectangles, and true otherwise; `isDeepOcean(20, 75)` is false
and `isDeepOcean(-20, 70)` is true. -/
theorem isDeepOcean_iff_no_zone :
    (∀ lat lon : JSNum,
      (isDeepOcean lat lon = false ↔ ∃ z ∈ exclusionZones, z.contains lat lon = true) ∧
      (isDeepOcean lat lon = true ↔ ∀ z ∈ exclusionZones, z.contains lat lon = false)) ∧
    exclusionZones.length = 10 ∧
    isDeepOcean (.fin 20) (.fin 75) = false ∧ isDeepOcean (.fin (-20)) (.fin 70) = true := by
  refine ⟨fun lat lon => ?_, rfl, by decide, by decide⟩
  have key : isDeepOcean lat lon = !(exclusionZones.any fun z => z.contains lat lon) := by
    simp only [isDeepOcean, ite_false_else, exclusionZones, Zone.contains, List.any_cons,
      List.any_nil, Bool.not_or, Bool.or_false, Bool.and_true, Bool.not_false]
  rw [key]
  constructor
  · simp [List.any_eq_true]
  · simp [List.any_eq_true]

/-! ## The synthetic generator -/

/-- One turn of the placement loop, as written in the source. -/
theorem placeLoop_unfold (random : Nat → Draw) (region : Region) (attempts r : Nat) :
    placeLoop random region attempts r =
      if !isDeepOcean (.fin ((random r).val * (region.latMax - region.latMin) + region.latMin))
          (.fin ((random (r + 1)).val * (region.lonMax - region.lonMin) + region.lonMin))
          && attempts + 1 < 20 then
        placeLoop random region (attempts + 1) (r + 2)
      else ((random r).val * (region.latMax - region.latMin) + region.latMin,
            (random (r + 1)).val * (region.lonMax - region.lonMin) + region.lonMin,
            attempts + 1, r + 2) := by
  unfold placeLoop
  conv_lhs => rw [placeLoopWith]

/-- The loop ends on a candidate that passes the test, or with the attempt count at 20. -/
theorem placeLoop_exit (random : Nat → Draw) (region : Region) :
    ∀ (n attempts r : Nat), 20 - attempts = n →
      isDeepOcean (.fin (placeLoop random region attempts r).1)
          (.fin (placeLoop random region attempts r).2.1) = true ∨
        (placeLoop random region attempts r).2.2.1 ≥ 20 := by
  intro n
  induction n with
  | zero =>
    intro attempts r h
    rw [placeLoop_unfold]
    have hc : ¬ (attempts + 1 < 20) := by omega
    simp only [hc, decide_False, Bool.and_false, Bool.false_eq_true, if_false]
    exact Or.inr (by omega)
  | succ n ih =>
    intro attempts r h
    rw [placeLoop_unfold]
    split
    · exact ih (attempts + 1) (r + 2) (by omega)
    · next hc =>
      simp only [Bool.and_eq_true, decide_eq_true_eq, not_and, Bool.not_eq_true',
        Bool.not_eq_false, not_lt] at hc
      cases hd : isDeepOcean
          (.fin ((random r).val * (region.latMax - region.latMin) + region.latMin))
          (.fin ((random (r + 1)).val * (region.lonMax - region.lonMin) + region.lonMin)) with
      | true => exact Or.inl rfl
      | false => exact Or.inr (hc hd)

theorem placeFloat_oceanOrFallback (random : Nat → Draw) (region : Region) (r : Nat) :
    OceanOrFallback (.fin (placeFloat random region r).1)
      (.fin (placeFloat random region r).2.1) := by
  unfold placeFloat
  simp only []
  split
  · exact Or.inr ⟨_, List.get_mem _ _ _, rfl, rfl⟩
  · next h =>
    rcases placeLoop_exit random region 20 0 r rfl with h' | h'
    · exact Or.inl h'
    · exact absurd h' h

theorem pushFloat_oceanOrFallback (w : World) (region : Region) (st : List FloatEntry × Calls)
    (hst : ∀ e ∈ st.1, OceanOrFallback e.lat e.lon) :
    ∀ e ∈ (pushFloat w region st).1, OceanOrFallback e.lat e.lon := by
  intro e he
  simp only [pushFloat, List.mem_append, List.mem_singleton] at he
  rcases he with he | he
  · exact hst e he
  · subst he
    exact placeFloat_oceanOrFallback w.random region st.2.random

/-- What is in the accumulator of a left fold stays in it when every step keeps it. -/
theorem foldl_mem_mono {α β γ : Type} (proj : β → List γ) (f : β → α → β)
    (hf : ∀ b a x, x ∈ proj b → x ∈ proj (f b a)) (l : List α) (b : β) (x : γ)
    (hx : x ∈ proj b) : x ∈ proj (l.foldl f b) :=
  foldl_invariant (fun b => x ∈ proj b) f (fun b a hb => hf b a x hb) l b hx

theorem pushFloat_mem_mono (w : World) (region : Region) (st : List FloatEntry × Calls)
    (e : FloatEntry) (he : e ∈ st.1) : e ∈ (pushFloat w region st).1 := by
  simp only [pushFloat, List.mem_append, List.mem_singleton]
  exact Or.inl he

theorem regionStep_mem_mono (w : World) (st : List FloatEntry × Calls) (ir : Nat × Region)
    (e : FloatEntry) (he : e ∈ st.1) : e ∈ (regionStep w st ir).1 :=
  foldl_mem_mono (fun st : List FloatEntry × Calls => st.1) _
    (fun b _ x hx => pushFloat_mem_mono w ir.2 b x hx) _ _ e he

theorem newFloat_mem_pushFloat (w : World) (k : Calls) (rg : Region) :
    (newFloat w rg 0 k).1 ∈ (pushFloat w rg ([], k)).1 := by
  simp only [pushFloat, List.nil_append, List.mem_singleton, List.length_nil]

theorem range_floatsPerRegion_zero :
    List.range (floatsPerRegion 0) = 0 :: (List.range 8).map (· + 1) := by
  decide

theorem newFloat_mem_regionStep (w : World) (k : Calls) (rg : Region) :
    (newFloat w rg 0 k).1 ∈ (regionStep w ([], k) (0, rg)).1 := by
  unfold regionStep
  rw [range_floatsPerRegion_zero, List.foldl_cons]
  exact foldl_mem_mono (fun st : List FloatEntry × Calls => st.1) _
    (fun b _ x hx => pushFloat_mem_mono w _ b x hx) _ _ _ (newFloat_mem_pushFloat w k rg)

/-- The first float built is an entry of the synthetic population. -/
theorem newFloat_first_mem (w : World) (k : Calls) :
    (newFloat w ⟨10, 25, 55, 75⟩ 0 k).1 ∈ (generateMockFloatData w k).1 := by
  have he : oceanRegions.enum = (0, ⟨10, 25, 55, 75⟩) :: oceanRegions.enum.tail := rfl
  unfold generateMockFloatData
  rw [he, List.foldl_cons]
  exact foldl_mem_mono (fun st : List FloatEntry × Calls => st.1) _
    (fun b a x hx => regionStep_mem_mono w b a x hx) _ _ _ (newFloat_mem_regionStep w k _)

theorem pushFloat_length (w : World) (region : Region) (st : List FloatEntry × Calls) :
    (pushFloat w region st).1.length = st.1.length + 1 := by
  simp [pushFloat]

theorem regionStep_length (w : World) (st : List FloatEntry × Calls) (ir : Nat × Region) :
    (regionStep w st ir).1.length = st.1.length + floatsPerRegion ir.1 := by
  unfold regionStep
  have key : ∀ (l : List Nat) (s : List FloatEntry × Calls),
      (l.foldl (fun s _ => pushFloat w ir.2 s) s).1.length = s.1.length + l.length := by
    intro l
    induction l with
    | nil => intro s; rfl
    | cons a l ih =>
      intro s
      simp only [List.foldl_cons, List.length_cons]
      rw [ih, pushFloat_length]
      omega
  rw [key, List.length_range]

/-- The synthetic population has exactly 50 entries, whatever the draws. -/
theorem generateMockFloatData_length (w : World) (k : Calls) :
    (generateMockFloatData w k).1.length = 50 := by
  simp only [generateMockFloatData, oceanRegions, List.enum, List.enumFrom, List.foldl_cons,
    List.foldl_nil, regionStep_length]
  rfl

theorem generateMockFloatData_oceanOrFallback (w : World) (k : Calls) :
    ∀ e ∈ (generateMockFloatData w k).1, OceanOrFallback e.lat e.lon := by
  unfold generateMockFloatData
  refine foldl_invariant (fun st : List FloatEntry × Calls =>
    ∀ e ∈ st.1, OceanOrFallback e.lat e.lon) _ ?_ _ _ (by simp)
  intro st ir hst
  unfold regionStep
  exact foldl_invariant (fun st : List FloatEntry × Calls =>
    ∀ e ∈ st.1, OceanOrFallback e.lat e.lon) _
    (fun b _ hb => pushFloat_oceanOrFallback w ir.2 b hb) _ _ hst

/-- C6: for every sequence of random draws, every entry returned by `generateMockFloatData`
has a position that passes `isDeepOcean` or is one of the coordinates listed by
`getKnownOceanLocations`. -/
theorem generateMockFloatData_positions (w : World) (k : Calls) (e : FloatEntry)
    (he : e ∈ (generateMockFloatData w k).1) :
    isDeepOcean e.lat e.lon = true ∨
      ∃ loc ∈ getKnownOceanLocations, e.lat = .fin loc.lat ∧ e.lon = .fin loc.lon :=
  generateMockFloatData_oceanOrFallback w k e he

/-! ### A run that ends on a rejected fallback point -/

/-- With every draw `0.2`, each candidate in the first box is (13, 59), inside the Arabian
Peninsula rectangle. -/
theorem candidate_fifth_rejected :
    isDeepOcean (.fin (drawFifth.val * ((25 : ℚ) - 10) + 10))
      (.fin (drawFifth.val * ((75 : ℚ) - 55) + 55)) = false := by
  norm_num [drawFifth, isDeepOcean, JSNum.gt, JSNum.lt]

theorem placeLoop_fifth : ∀ (n attempts r : Nat), 20 - attempts = n → attempts < 20 →
    (placeLoop worldFifth.random ⟨10, 25, 55, 75⟩ attempts r).2.2 = (20, r + 2 * n) := by
  intro n
  induction n with
  | zero => intro attempts r h h'; omega
  | succ n ih =>
    intro attempts r h h'
    rw [placeLoop_unfold]
    have hc := candidate_fifth_rejected
    simp only [worldFifth] at hc ⊢
    simp only [hc, Bool.not_false, Bool.true_and]
    by_cases hlt : attempts + 1 < 20
    · simp only [hlt, decide_True, if_true]
      have := ih (attempts + 1) (r + 2) (by omega) hlt
      simp only [worldFifth] at this
      rw [this]
      congr 1
      omega
    · simp only [hlt, decide_False, Bool.false_eq_true, if_false]
      have h1 : attempts + 1 = 20 := by omega
      have h2 : n = 0 := by omega
      subst h2
      simp [h1]

theorem randomIndex_fifth (h : 0 < getKnownOceanLocations.length) :
    (randomIndex drawFifth getKnownOceanLocations.length h).val = 3 := by
  have hf : ⌊drawFifth.val * ((getKnownOceanLocations.length : ℕ) : ℚ)⌋ = 3 := by
    rw [Int.floor_eq_iff]
    norm_num [drawFifth, getKnownOceanLocations]
  simp only [randomIndex, hf]
  rfl

theorem get_of_val {α : Type} (l : List α) (i : Fin l.length) (n : Nat) (x : α)
    (hi : i.val = n) (hx : l[n]? = some x) : l.get i = x := by
  subst hi
  rw [List.getElem?_eq_getElem i.isLt] at hx
  exact Option.some.inj hx

/-- With every draw `0.2` the first float exhausts its 20 tries and is put on the fourth
entry of the fallback table. -/
theorem placeFloat_fifth (r : Nat) :
    (placeFloat worldFifth.random ⟨10, 25, 55, 75⟩ r).1 = 12.5 ∧
    (placeFloat worldFifth.random ⟨10, 25, 55, 75⟩ r).2.1 = 87.0 := by
  have hp := placeLoop_fifth 20 0 r rfl (by decide)
  have h20 : (placeLoop worldFifth.random ⟨10, 25, 55, 75⟩ 0 r).2.2.1 ≥ 20 := by
    rw [hp]
  have hget : getKnownOceanLocations.get
      (randomIndex (worldFifth.random (placeLoop worldFifth.random ⟨10, 25, 55, 75⟩ 0 r).2.2.2)
        getKnownOceanLocations.length (by decide)) = ⟨12.5, 87.0⟩ :=
    get_of_val _ _ 3 _ (randomIndex_fifth _) rfl
  unfold placeFloat
  simp only [h20, if_true, hget, and_self]

/-- Witness for C6: the first float of the run in which every draw is `0.2`. -/
theorem generateMockFloatData_positions_witness :
    (newFloat worldFifth ⟨10, 25, 55, 75⟩ 0 noCalls).1 ∈
      (generateMockFloatData worldFifth noCalls).1 ∧
    (isDeepOcean (newFloat worldFifth ⟨10, 25, 55, 75⟩ 0 noCalls).1.lat
        (newFloat worldFifth ⟨10, 25, 55, 75⟩ 0 noCalls).1.lon = true ∨
      ∃ loc ∈ getKnownOceanLocations,
        (newFloat worldFifth ⟨10, 25, 55, 75⟩ 0 noCalls).1.lat = .fin loc.lat ∧
        (newFloat worldFifth ⟨10, 25, 55, 75⟩ 0 noCalls).1.lon = .fin loc.lon) :=
  ⟨newFloat_first_mem worldFifth noCalls,
   generateMockFloatData_positions worldFifth noCalls _ (newFloat_first_mem worldFifth noCalls)⟩

theorem table_points_rejected :
    isDeepOcean (.fin 12.5) (.fin 87.0) = false ∧
    isDeepOcean (.fin 15.8) (.fin 89.2) = false ∧
    isDeepOcean (.fin 18.0) (.fin 85.5) = false := by
  refine ⟨?_, ?_, ?_⟩ <;> norm_num [isDeepOcean, JSNum.gt, JSNum.lt]

/-- C7 fails on the code: the fourth entry of the fallback table, (12.5, 87.0), lies strictly
inside the first exclusion rectangle (8 < lat < 37, 68 < lon < 97), so `isDeepOcean` rejects
it, as it does the fifth and sixth entries; only 15 of the 18 entries pass. The run in which
every draw is `0.2` puts its first synthetic float on that rejected point. -/
theorem knownOceanLocations_not_all_deep :
    getKnownOceanLocations.length = 18 ∧
    getKnownOceanLocations[3]? = some ⟨12.5, 87.0⟩ ∧
    isDeepOcean (.fin 12.5) (.fin 87.0) = false ∧
    isDeepOcean (.fin 15.8) (.fin 89.2) = false ∧
    isDeepOcean (.fin 18.0) (.fin 85.5) = false ∧
    (getKnownOceanLocations.filter fun l => isDeepOcean (.fin l.lat) (.fin l.lon)).length
      = 15 ∧
    ∃ e ∈ (generateMockFloatData worldFifth noCalls).1,
      e.lat = .fin 12.5 ∧ e.lon = .fin 87.0 ∧ isDeepOcean e.lat e.lon = false := by
  refine ⟨rfl, rfl, table_points_rejected.1, table_points_rejected.2.1,
    table_points_rejected.2.2, ?_, ?_⟩
  · norm_num [getKnownOceanLocations, List.filter, isDeepOcean, JSNum.gt, JSNum.lt]
  · have hp := placeFloat_fifth noCalls.random
    have hlat : (newFloat worldFifth ⟨10, 25, 55, 75⟩ 0 noCalls).1.lat = .fin 12.5 := by
      simp only [newFloat, hp.1]
    have hlon : (newFloat worldFifth ⟨10, 25, 55, 75⟩ 0 noCalls).1.lon = .fin 87.0 := by
      simp only [newFloat, hp.2]
    refine ⟨_, newFloat_first_mem worldFifth noCalls, hlat, hlon, ?_⟩
    rw [hlat, hlon]
    exact table_points_rejected.1

/-! ## The assembler: replacement and retention -/

theorem foldl_pushProfile (w : World) (floatId : String) (ps : List Profile) :
    ∀ (acc : List FloatEntry) (r idx : Nat),
      (ps.enumFrom idx).foldl (pushProfile w floatId) (acc, r) =
        (acc ++ (entriesInOrder w floatId r idx ps).1, (entriesInOrder w floatId r idx ps).2) := by
  induction ps with
  | nil => intro acc r idx; simp [entriesInOrder]
  | cons p ps ih =>
    intro acc r idx
    simp only [List.enumFrom, List.foldl_cons, pushProfile, entriesInOrder]
    rw [ih]
    simp

theorem entriesInOrder_nil (w : World) (floatId : String) (r idx : Nat) :
    entriesInOrder w floatId r idx [] = ([], r) := rfl

theorem sourceStep_decoded (w : World) (st : LoadState) (s : Source) (data : NcData)
    (floatId : String) (hf : s.fetched = some data) (hi : s.floatId = some floatId) :
    (sourceStep w st s).newFloatData =
        st.newFloatData ++ (entriesInOrder w floatId st.calls.random 0
          (parseNetCDFData w.clock st.calls.clock data floatId).1.profiles).1 ∧
    (sourceStep w st s).calls =
        { random := (entriesInOrder w floatId st.calls.random 0
            (parseNetCDFData w.clock st.calls.clock data floatId).1.profiles).2
          clock := (parseNetCDFData w.clock st.calls.clock data floatId).2 } := by
  simp only [sourceStep, hf, hi]
  split
  · simp only [List.enum, foldl_pushProfile, and_self]
  · next h =>
    have hnil : (parseNetCDFData w.clock st.calls.clock data floatId).1.profiles = [] := by
      cases hp : (parseNetCDFData w.clock st.calls.clock data floatId).1.profiles with
      | nil => rfl
      | cons a l => rw [hp] at h; simp at h
    simp [hnil, entriesInOrder_nil]

theorem sourceStep_skipped (w : World) (st : LoadState) (s : Source)
    (h : s.fetched = none ∨ s.floatId = none) :
    (sourceStep w st s).newFloatData = st.newFloatData ∧ (sourceStep w st s).calls = st.calls := by
  unfold sourceStep
  rcases h with h | h
  · simp [h]
  · cases hf : s.fetched <;> simp [h]

/-- The loop pushes exactly the decoded entries, in order, after what it started with. -/
theorem foldl_sourceStep (w : World) (sources : List Source) :
    ∀ st : LoadState, (sources.foldl (sourceStep w) st).newFloatData =
      st.newFloatData ++ decodedEntries w st.calls sources := by
  induction sources with
  | nil => intro st; simp [decodedEntries]
  | cons s rest ih =>
    intro st
    rw [List.foldl_cons, ih]
    cases hf : s.fetched with
    | none =>
      obtain ⟨h1, h2⟩ := sourceStep_skipped w st s (Or.inl hf)
      rw [h1, h2]
      simp [decodedEntries, hf]
    | some data =>
      cases hi : s.floatId with
      | none =>
        obtain ⟨h1, h2⟩ := sourceStep_skipped w st s (Or.inr hi)
        rw [h1, h2]
        simp [decodedEntries, hf, hi]
      | some floatId =>
        obtain ⟨h1, h2⟩ := sourceStep_decoded w st s data floatId hf hi
        rw [h1, h2]
        simp [decodedEntries, hf, hi]

theorem loadNetCDFFilesFrom_of_decoded (w : World) (sources : List Source) (app : AppState)
    (k : Calls) (hd : decodedEntries w k sources ≠ []) :
    (loadNetCDFFilesFrom w sources app k).1.floatData = decodedEntries w k sources ∧
    (loadNetCDFFilesFrom w sources app k).1.dataLoaded = true := by
  have h := foldl_sourceStep w sources
    { newFloatData := [], realData := app.realData, calls := k }
  simp only [List.nil_append] at h
  unfold loadNetCDFFilesFrom
  simp only [h]
  have hpos : (decodedEntries w k sources).length > 0 := List.length_pos.mpr hd
  simp [hpos]

theorem loadNetCDFFilesFrom_of_none (w : World) (sources : List Source) (app : AppState)
    (k : Calls) (hd : decodedEntries w k sources = []) :
    (loadNetCDFFilesFrom w sources app k).1.floatData = app.floatData ∧
    (loadNetCDFFilesFrom w sources app k).1.dataLoaded = app.dataLoaded := by
  have h := foldl_sourceStep w sources
    { newFloatData := [], realData := app.realData, calls := k }
  simp only [List.nil_append] at h
  unfold loadNetCDFFilesFrom
  simp only [h]
  simp [hd]

theorem decodedEntries_fails_cons (w : World) (k : Calls) (s : Source) (rest : List Source)
    (hs : s.Fails) : decodedEntries w k (s :: rest) = decodedEntries w k rest := by
  rcases hs with h | h | ⟨data, hf, hh⟩
  · simp [decodedEntries, h]
  · cases hf : s.fetched <;> simp [decodedEntries, h]
  · cases hi : s.floatId with
    | none => simp [decodedEntries, hf, hi]
    | some floatId =>
      have hp : ∀ c, parseNetCDFData w.clock c data floatId =
          ({ floatId := floatId, profiles := [] }, c) := by
        intro c
        simp [parseNetCDFData, hh]
      simp [decodedEntries, hf, hi, hp, entriesInOrder_nil]

theorem decodedEntries_remove (w : World) (pre : List Source) (s : Source) (post : List Source)
    (hs : s.Fails) :
    ∀ k, decodedEntries w k (pre ++ s :: post) = decodedEntries w k (pre ++ post) := by
  induction pre with
  | nil => intro k; exact decodedEntries_fails_cons w k s post hs
  | cons a pre ih =>
    intro k
    simp only [List.cons_append, decodedEntries]
    split
    · exact congrArg _ (ih _)
    · exact ih _

/-- C8: when at least one decoded entry exists across all sources, `loadNetCDFFiles` replaces
`floatData` by exactly the decoded entries (the concatenation, in source-list order, of each
decoded source's entries in record order) and sets `dataLoaded`; a source that fails
contributes nothing and does not stop the later ones: the catalog is the one obtained
without that source in the list. -/
theorem loadNetCDFFilesFrom_replaces (w : World) (sources : List Source) (app : AppState)
    (k : Calls) (h : decodedEntries w k sources ≠ []) :
    (loadNetCDFFilesFrom w sources app k).1.floatData = decodedEntries w k sources ∧
    (loadNetCDFFilesFrom w sources app k).1.dataLoaded = true ∧
    ∀ (pre : List Source) (s : Source) (post : List Source),
      sources = pre ++ s :: post → s.Fails →
        (loadNetCDFFilesFrom w (pre ++ post) app k).1.floatData =
          (loadNetCDFFilesFrom w sources app k).1.floatData := by
  obtain ⟨h1, h2⟩ := loadNetCDFFilesFrom_of_decoded w sources app k h
  refine ⟨h1, h2, ?_⟩
  intro pre s post hsrc hs
  have heq : decodedEntries w k (pre ++ post) = decodedEntries w k sources := by
    rw [hsrc, decodedEntries_remove w pre s post hs]
  rw [h1, (loadNetCDFFilesFrom_of_decoded w (pre ++ post) app k (by rw [heq]; exact h)).1, heq]

theorem decodedEntries_three_length :
    (decodedEntries worldFifth (init worldFifth).2 [sourceThree, sourceFailed]).length = 3 := by
  decide

/-- Witness for C8: one source decoding to three profiles followed by one source that fails,
ingested over the synthetic catalog, gives exactly three entries with `dataLoaded` true. -/
theorem loadNetCDFFilesFrom_replaces_witness :
    decodedEntries worldFifth (init worldFifth).2 [sourceThree, sourceFailed] ≠ [] ∧
    (loadNetCDFFilesFrom worldFifth [sourceThree, sourceFailed] (init worldFifth).1
        (init worldFifth).2).1.floatData.length = 3 ∧
    (loadNetCDFFilesFrom worldFifth [sourceThree, sourceFailed] (init worldFifth).1
        (init worldFifth).2).1.dataLoaded = true :=
  have hne : decodedEntries worldFifth (init worldFifth).2 [sourceThree, sourceFailed] ≠ [] :=
    fun h => absurd (h ▸ decodedEntries_three_length) (by decide)
  ⟨hne,
   by rw [(loadNetCDFFilesFrom_replaces worldFifth [sourceThree, sourceFailed]
        (init worldFifth).1 (init worldFifth).2 hne).1]
      exact decodedEntries_three_length,
   (loadNetCDFFilesFrom_replaces worldFifth [sourceThree, sourceFailed]
      (init worldFifth).1 (init worldFifth).2 hne).2.1⟩

theorem decodedEntries_nil_of_yieldsNothing (w : World) (sources : List Source)
    (h : ∀ s ∈ sources, s.YieldsNothing) : ∀ k, decodedEntries w k sources = [] := by
  induction sources with
  | nil => intro k; rfl
  | cons s rest ih =>
    intro k
    have hrest := ih (fun t ht => h t (List.mem_cons_of_mem _ ht))
    rcases h s (List.mem_cons_self _ _) with h1 | h1 | ⟨data, hf, hp⟩
    · simp [decodedEntries, h1, hrest]
    · cases hf : s.fetched <;> simp [decodedEntries, h1, hrest]
    · cases hi : s.floatId with
      | none => simp [decodedEntries, hf, hi, hrest]
      | some floatId => simp [decodedEntries, hf, hi, hp, entriesInOrder_nil, hrest]

theorem init_state (w : World) :
    (init w).1.dataLoaded = false ∧ (init w).1.floatData.length = 50 :=
  ⟨rfl, generateMockFloatData_length w _⟩

/-- C9: if no source yields a decoded entry (no source at all, or every source fails or
decodes to zero profiles), `loadNetCDFFiles` leaves `floatData` and `dataLoaded` as they
were; run on the state `init` builds, whatever oracle calls were made in between, it leaves
`dataLoaded` false and the catalog at the 50 synthetic entries. -/
theorem loadNetCDFFilesFrom_retains (w : World) (sources : List Source) (app : AppState)
    (k : Calls) (h : ∀ s ∈ sources, s.YieldsNothing) :
    (loadNetCDFFilesFrom w sources app k).1.floatData = app.floatData ∧
    (loadNetCDFFilesFrom w sources app k).1.dataLoaded = app.dataLoaded ∧
    (loadNetCDFFilesFrom w sources (init w).1 k).1.floatData = (init w).1.floatData ∧
    (loadNetCDFFilesFrom w sources (init w).1 k).1.dataLoaded = false ∧
    (loadNetCDFFilesFrom w sources (init w).1 k).1.floatData.length = 50 := by
  have hnil := decodedEntries_nil_of_yieldsNothing w sources h
  obtain ⟨h1, h2⟩ := loadNetCDFFilesFrom_of_none w sources app k (hnil k)
  obtain ⟨h3, h4⟩ := loadNetCDFFilesFrom_of_none w sources (init w).1 k (hnil k)
  refine ⟨h1, h2, h3, ?_, ?_⟩
  · rw [h4]; exact (init_state w).1
  · rw [h3]; exact (init_state w).2

theorem sourceFailed_yieldsNothing : sourceFailed.YieldsNothing := Or.inl rfl

theorem sourceNoHeader_yieldsNothing : sourceNoHeader.YieldsNothing :=
  Or.inr (Or.inr ⟨_, rfl, fun _ _ _ => rfl⟩)

/-- Witness for C9: a source whose retrieval fails and a source whose decoding raises,
ingested over the synthetic catalog. -/
theorem loadNetCDFFilesFrom_retains_witness :
    (∀ s ∈ [sourceFailed, sourceNoHeader], s.YieldsNothing) ∧
    (loadNetCDFFilesFrom worldFifth [sourceFailed, sourceNoHeader] (init worldFifth).1
        (init worldFifth).2).1.floatData = (init worldFifth).1.floatData ∧
    (loadNetCDFFilesFrom worldFifth [sourceFailed, sourceNoHeader] (init worldFifth).1
        (init worldFifth).2).1.dataLoaded = false ∧
    (loadNetCDFFilesFrom worldFifth [sourceFailed, sourceNoHeader] (init worldFifth).1
        (init worldFifth).2).1.floatData.length = 50 :=
  have hy : ∀ s ∈ [sourceFailed, sourceNoHeader], s.YieldsNothing := by
    intro s hs
    simp only [List.mem_cons, List.mem_singleton, List.not_mem_nil, or_false] at hs
    rcases hs with rfl | rfl
    · exact sourceFailed_yieldsNothing
    · exact sourceNoHeader_yieldsNothing
  ⟨hy, (loadNetCDFFilesFrom_retains worldFifth [sourceFailed, sourceNoHeader]
      (init worldFifth).1 (init worldFifth).2 hy).2.2⟩

/-! ## Region names -/

theorem namedRegions_names_ne_default :
    ∀ g ∈ namedRegions, g.name ≠ "Indian Ocean" := by
  decide

theorem getRegionName_eq_find (lat lon : JSNum) :
    getRegionName lat lon =
      match namedRegions.find? (fun g => g.contains lat lon) with
      | some g => g.name
      | none => "Indian Ocean" := by
  simp only [getRegionName, namedRegions, List.find?, NamedRegion.contains, Bool.and_true,
    Bool.true_and]
  split
  · next h => simp only [h]
  · next h =>
    simp only [h]
    split
    · next h => simp only [h]
    · next h =>
      simp only [h]
      split
      · next h => simp only [h]
      · next h =>
        simp only [h]
        split
        · next h => simp only [h]
        · next h =>
          simp only [h]
          split
          · next h => simp only [h]
          · next h =>
            simp only [h]
            split
            · next h => simp only [h]
            · next h => simp only [h]

/-- C11: `getRegionName(lat, lon)` returns the name of the first region, in the order
Arabian Sea, Bay of Bengal, Central, Southern, Western, Eastern Indian Ocean, whose bounds
contain the point, and `'Indian Ocean'` exactly when no region contains it; (-25, 50) lies in
both the Southern and the Western bounds and is named `'Southern Indian Ocean'`. -/
theorem getRegionName_first_match :
    (∀ lat lon : JSNum,
      getRegionName lat lon =
        match namedRegions.find? (fun g => g.contains lat lon) with
        | some g => g.name
        | none => "Indian Ocean") ∧
    (∀ lat lon : JSNum,
      getRegionName lat lon = "Indian Ocean" ↔
        ∀ g ∈ namedRegions, g.contains lat lon = false) ∧
    namedRegions.map (fun g => g.name) =
      ["Arabian Sea", "Bay of Bengal", "Central Indian Ocean", "Southern Indian Ocean",
       "Western Indian Ocean", "Eastern Indian Ocean"] ∧
    (namedRegions.filter fun g => g.contains (.fin (-25)) (.fin 50)).map (fun g => g.name) =
      ["Southern Indian Ocean", "Western Indian Ocean"] ∧
    getRegionName (.fin (-25)) (.fin 50) = "Southern Indian Ocean" := by
  refine ⟨getRegionName_eq_find, fun lat lon => ?_, rfl, by decide, by decide⟩
  rw [getRegionName_eq_find]
  cases hf : namedRegions.find? (fun g => g.contains lat lon) with
  | none =>
    simp only [true_iff]
    intro g hg
    have := List.find?_eq_none.mp hf g hg
    simpa using this
  | some g =>
    have hg : g ∈ namedRegions := List.mem_of_find?_eq_some hf
    have hc : g.contains lat lon = true := by simpa using List.find?_some hf
    simp only
    constructor
    · intro h; exact absurd h (namedRegions_names_ne_default g hg)
    · intro h; rw [h g hg] at hc; exact absurd hc (by decide)

/-! ## The decoder: failures -/

theorem readHeader_some_reads (ncData : NcData) (h : Header) (hh : readHeader ncData = some h) :
    ncData.dimensions ≠ none ∧
      ∀ name ∈ sixVariables, ncData.getDataVariable name ≠ VarRead.throws := by
  have hget : ∀ (v : VarRead) (x : Option (List JSNum)), v.get? = some x → v ≠ VarRead.throws := by
    intro v x hv hthrows
    rw [hthrows] at hv
    simp [VarRead.get?] at hv
  simp only [readHeader, Option.bind_eq_bind, Option.bind_eq_some, Option.pure_def] at hh
  obtain ⟨dims, hd, lat, hlat, lon, hlon, juld, hjuld, temp, htemp, psal, hpsal, pres, hpres, -⟩ := hh
  refine ⟨by rw [hd]; simp, ?_⟩
  intro name hname
  simp only [sixVariables, List.mem_cons, List.mem_singleton, List.not_mem_nil, or_false] at hname
  rcases hname with rfl | rfl | rfl | rfl | rfl | rfl
  · exact hget _ _ hlat
  · exact hget _ _ hlon
  · exact hget _ _ hjuld
  · exact hget _ _ htemp
  · exact hget _ _ hpsal
  · exact hget _ _ hpres

/-- C12: `parseNetCDFData` always returns; when the dimension list is missing or reading any
of the six variables raises, it returns the result object with an empty profile list (and has
not read the clock). -/
theorem parseNetCDFData_failure_empty (clock : Nat → Int) (c : Nat) (ncData : NcData)
    (floatId : String)
    (h : ncData.dimensions = none ∨
      ∃ name ∈ sixVariables, ncData.getDataVariable name = VarRead.throws) :
    parseNetCDFData clock c ncData floatId = ({ floatId := floatId, profiles := [] }, c) := by
  cases hh : readHeader ncData with
  | none => simp [parseNetCDFData, hh]
  | some hd =>
    obtain ⟨h1, h2⟩ := readHeader_some_reads ncData hd hh
    rcases h with h | ⟨name, hname, hthrows⟩
    · exact absurd h h1
    · exact absurd hthrows (h2 name hname)

/-- Witness for C12: the dimensions are declared and five variables are present, but reading
`TEMP` raises. -/
theorem parseNetCDFData_failure_empty_witness :
    (ncTempRaises.dimensions = none ∨
      ∃ name ∈ sixVariables, ncTempRaises.getDataVariable name = VarRead.throws) ∧
    parseNetCDFData clockZero 0 ncTempRaises "1901766" =
      ({ floatId := "1901766", profiles := [] }, 0) :=
  ⟨Or.inr ⟨"TEMP", by decide, rfl⟩,
   parseNetCDFData_failure_empty clockZero 0 ncTempRaises "1901766"
     (Or.inr ⟨"TEMP", by decide, rfl⟩)⟩

/-! ## The calendar conversion: unknown values -/

/-- C19: for `undefined`, `null` and every number greater than 99999 (`Infinity` included),
`julianToDate` returns the clock reading taken at the call, as a valid date. -/
theorem julianToDate_unknown_reads_clock (clock : Nat → Int) (c : Nat) (v : JSVal)
    (h : v = JSVal.undefined ∨ v = JSVal.null ∨
      ∃ x, v = JSVal.num x ∧ JSNum.gt x (.fin 99999) = true) :
    julianToDate clock c v = (JSDate.valid (clock c), c + 1) := by
  rcases h with rfl | rfl | ⟨x, rfl, hx⟩
  · simp [julianToDate, JSVal.truthy]
  · simp [julianToDate, JSVal.truthy]
  · simp [julianToDate, JSVal.gt, JSVal.toNumber, hx]

/-- Witness for C19: the fill value 999999 at the third clock reading. -/
theorem julianToDate_unknown_reads_clock_witness :
    (JSVal.num (.fin 999999) = JSVal.undefined ∨ JSVal.num (.fin 999999) = JSVal.null ∨
      ∃ x, JSVal.num (.fin 999999) = JSVal.num x ∧ JSNum.gt x (.fin 99999) = true) ∧
    julianToDate clockTicking 2 (.num (.fin 999999)) = (JSDate.valid 1700000000002, 3) :=
  ⟨Or.inr (Or.inr ⟨.fin 999999, rfl, by decide⟩),
   julianToDate_unknown_reads_clock clockTicking 2 (.num (.fin 999999))
     (Or.inr (Or.inr ⟨.fin 999999, rfl, by decide⟩))⟩

/-! ## The catalog is never empty -/

theorem init_floatData_ne_nil (w : World) : (init w).1.floatData ≠ [] := by
  intro h
  have h50 := (init_state w).2
  rw [h] at h50
  simp at h50

theorem loadNetCDFFilesFrom_ne_nil (w : World) (sources : List Source) (app : AppState)
    (k : Calls) (h : app.floatData ≠ []) :
    (loadNetCDFFilesFrom w sources app k).1.floatData ≠ [] := by
  by_cases hd : decodedEntries w k sources = []
  · rw [(loadNetCDFFilesFrom_of_none w sources app k hd).1]; exact h
  · rw [(loadNetCDFFilesFrom_of_decoded w sources app k hd).1]; exact hd

/-- C13: `floatData` is non-empty after `init` has called `generateMockFloatData`, and a run
of `loadNetCDFFiles` on a non-empty catalog leaves it non-empty whatever the sources return;
in particular it is non-empty after the run that follows `init`. -/
theorem floatData_never_empty (w : World) (sources : List Source) (app : AppState) (k : Calls)
    (h : app.floatData ≠ []) :
    (init w).1.floatData ≠ [] ∧
    (loadNetCDFFilesFrom w sources app k).1.floatData ≠ [] ∧
    (loadNetCDFFilesFrom w sources (init w).1 k).1.floatData ≠ [] :=
  ⟨init_floatData_ne_nil w, loadNetCDFFilesFrom_ne_nil w sources app k h,
   loadNetCDFFilesFrom_ne_nil w sources (init w).1 k (init_floatData_ne_nil w)⟩

/-- Witness for C13: the synthetic catalog, then one good and one failed source. -/
theorem floatData_never_empty_witness :
    (init worldFifth).1.floatData ≠ [] ∧
    ((init worldFifth).1.floatData ≠ [] ∧
     (loadNetCDFFilesFrom worldFifth [sourceThree, sourceFailed] (init worldFifth).1
        (init worldFifth).2).1.floatData ≠ [] ∧
     (loadNetCDFFilesFrom worldFifth [sourceThree, sourceFailed] (init worldFifth).1
        (init worldFifth).2).1.floatData ≠ []) :=
  ⟨init_floatData_ne_nil worldFifth,
   floatData_never_empty worldFifth [sourceThree, sourceFailed] (init worldFifth).1
     (init worldFifth).2 (init_floatData_ne_nil worldFifth)⟩

/-! ## Position and region of a decoded entry -/

theorem parseNetCDFData_equator (c : Nat) :
    parseNetCDFData worldFifth.clock c ncEquator "1901766" =
      ({ floatId := "1901766", profiles := [profileEquator] }, c + 1) := by
  rfl

theorem decodedEntries_equator (k : Calls) :
    decodedEntries worldFifth k [sourceEquator] =
      [(newEntry worldFifth "1901766" k.random 0 profileEquator).1] := by
  have h : decodedEntries worldFifth k [sourceEquator] =
      (entriesInOrder worldFifth "1901766" k.random 0
          (parseNetCDFData worldFifth.clock k.clock ncEquator "1901766").1.profiles).1 ++
        decodedEntries worldFifth
          { random := (entriesInOrder worldFifth "1901766" k.random 0
              (parseNetCDFData worldFifth.clock k.clock ncEquator "1901766").1.profiles).2
            clock := (parseNetCDFData worldFifth.clock k.clock ncEquator "1901766").2 } [] := rfl
  rw [h, parseNetCDFData_equator]
  simp only [entriesInOrder, decodedEntries, List.append_nil]

theorem loadNetCDFFilesFrom_equator (app : AppState) (k : Calls) :
    (loadNetCDFFilesFrom worldFifth [sourceEquator] app k).1.floatData =
      [(newEntry worldFifth "1901766" k.random 0 profileEquator).1] := by
  rw [(loadNetCDFFilesFrom_of_decoded worldFifth [sourceEquator] app k
    (by rw [decodedEntries_equator]; simp)).1, decodedEntries_equator]

theorem newEntry_equator (r : Nat) :
    (newEntry worldFifth "1901766" r 0 profileEquator).1.lat = .fin (-27) ∧
    (newEntry worldFifth "1901766" r 0 profileEquator).1.lon = .fin 80 ∧
    (newEntry worldFifth "1901766" r 0 profileEquator).1.region = "Central Indian Ocean" := by
  refine ⟨?_, ?_, ?_⟩
  · simp only [newEntry, profileEquator, worldFifth, getRandomLatitude, drawFifth]
    norm_num
  · simp [newEntry, profileEquator, JSNum.truthy]
  · simp only [newEntry, profileEquator, JSVal.toNumber]
    decide

/-- C15 fails on the code: the file supplies `LATITUDE[0] = 0`, but `0` is falsy, so the
record's latitude becomes `null` and the entry gets a random latitude (here -27, the draw
being 0.2) instead of 0; the longitude 80 is inherited. -/
theorem decoded_entry_equator_gets_random_latitude (app : AppState) (k : Calls) :
    ncEquator.getDataVariable "LATITUDE" = VarRead.data [.fin 0] ∧
    ncEquator.getDataVariable "LONGITUDE" = VarRead.data [.fin 80] ∧
    (loadNetCDFFilesFrom worldFifth [sourceEquator] app k).1.floatData.map
        (fun e => (e.lat, e.lon)) = [(.fin (-27), .fin 80)] := by
  refine ⟨rfl, rfl, ?_⟩
  rw [loadNetCDFFilesFrom_equator]
  simp only [List.map_cons, List.map_nil, (newEntry_equator k.random).1,
    (newEntry_equator k.random).2.1]

/-- C14 fails on the code: for the profile taken on the equator at longitude 80 the region is
computed from the record's `null` latitude (which compares as 0) and is
`'Central Indian Ocean'`, while the entry's own position (-27, 80) is named
`'Southern Indian Ocean'` by `getRegionName`. -/
theorem decoded_entry_region_differs_from_position (app : AppState) (k : Calls) :
    (loadNetCDFFilesFrom worldFifth [sourceEquator] app k).1.floatData.map
        (fun e => (e.region, getRegionName e.lat e.lon)) =
      [("Central Indian Ocean", "Southern Indian Ocean")] := by
  rw [loadNetCDFFilesFrom_equator]
  simp only [List.map_cons, List.map_nil, (newEntry_equator k.random).1,
    (newEntry_equator k.random).2.1, (newEntry_equator k.random).2.2]
  decide

/-- The synthetic path does derive the region from the entry's own position. -/
theorem newFloat_region (w : World) (region : Region) (count : Nat) (k : Calls) :
    (newFloat w region count k).1.region =
      getRegionName (newFloat w region count k).1.lat (newFloat w region count k).1.lon := rfl

/-- So does the decoded path when both coordinates of the record are truthy numbers. -/
theorem newEntry_region_of_truthy (w : World) (floatId : String) (r idx : Nat) (p : Profile)
    (x y : JSNum) (hx : p.latitude = .num x) (hy : p.longitude = .num y)
    (hxt : x.truthy = true) (hyt : y.truthy = true) :
    (newEntry w floatId r idx p).1.lat = x ∧ (newEntry w floatId r idx p).1.lon = y ∧
    (newEntry w floatId r idx p).1.region = getRegionName x y := by
  simp [newEntry, hx, hy, hxt, hyt, JSVal.toNumber]

/-! ## The aggregator: defaults and scalar entries -/

/-- C17 fails on the code: a decoded entry whose only temperature is 150 and only salinity is
60 holds no in-band reading, yet the ranges returned are `{min: 150, max: -Infinity}` and
`{min: 60, max: -Infinity}`, not the defaults; the defaults are returned for the empty
catalog. -/
theorem getDataStatistics_defaults_missed :
    (getDataStatistics catalogOutOfBandSeries).tempRange = { min := .fin 150, max := .negInf } ∧
    (getDataStatistics catalogOutOfBandSeries).salinityRange =
      { min := .fin 60, max := .negInf } ∧
    (getDataStatistics []).tempRange = { min := .fin 2, max := .fin 29 } ∧
    (getDataStatistics []).salinityRange = { min := .fin 34.5, max := .fin 35.5 } :=
  ⟨by decide, by decide, rfl, rfl⟩

/-- C18 as stated fails: a scalar temperature of 150 and a scalar salinity of 60 are absorbed
without any band check and become the reported min and max. -/
theorem getDataStatistics_scalar_unchecked :
    (getDataStatistics catalogOutOfBandScalar).tempRange = { min := .fin 150, max := .fin 150 } ∧
    (getDataStatistics catalogOutOfBandScalar).salinityRange =
      { min := .fin 60, max := .fin 60 } := by
  decide

theorem foldl_absorb_scalars (lo hi : JSNum) (vals : List ℚ) :
    ∀ rng : Range, (scalarFields vals).foldl (absorb lo hi) rng =
      { min := (vals.map JSNum.fin).foldl JSNum.min2 rng.min
        max := (vals.map JSNum.fin).foldl JSNum.max2 rng.max } := by
  induction vals with
  | nil => intro rng; rfl
  | cons v vals ih =>
    intro rng
    simp only [scalarFields, List.map_cons, List.foldl_cons] at ih ⊢
    rw [ih]
    rfl

theorem foldRange_scalars (lo hi : JSNum) (v : ℚ) (vals : List ℚ) :
    foldRange lo hi (scalarFields (v :: vals)) =
      { min := .fin (vals.foldl min v), max := .fin (vals.foldl max v) } := by
  have hmin := minOf_fin_cons v vals
  have hmax := maxOf_fin_cons v vals
  simp only [JSNum.minOf, JSNum.maxOf] at hmin hmax
  rw [foldRange, foldl_absorb_scalars, hmin, hmax]

theorem range_of_scalars (cat : List FloatEntry) (vals : List ℚ) (hne : cat ≠ [])
    (proj : FloatEntry → Sensor) (hvals : cat.map proj = scalarFields vals) (lo hi : JSNum) :
    ∃ m M, foldRange lo hi (cat.map proj) = { min := .fin m, max := .fin M } ∧
      IsMinOf m vals ∧ IsMaxOf M vals := by
  cases vals with
  | nil =>
    have := congrArg List.length hvals
    simp [scalarFields] at this
    exact absurd this hne
  | cons v vals =>
    rw [hvals, foldRange_scalars]
    exact ⟨_, _, rfl, foldl_min_isMinOf v vals, foldl_max_isMaxOf v vals⟩

/-- A property of every float the generator builds holds of every synthetic entry. -/
theorem generateMockFloatData_forall (P : FloatEntry → Prop)
    (hP : ∀ (w : World) (region : Region) (count : Nat) (k : Calls),
      P (newFloat w region count k).1)
    (w : World) (k : Calls) : ∀ e ∈ (generateMockFloatData w k).1, P e := by
  have hpush : ∀ (region : Region) (st : List FloatEntry × Calls),
      (∀ e ∈ st.1, P e) → ∀ e ∈ (pushFloat w region st).1, P e := by
    intro region st hst e he
    simp only [pushFloat, List.mem_append, List.mem_singleton] at he
    rcases he with he | he
    · exact hst e he
    · rw [he]; exact hP w region _ _
  unfold generateMockFloatData
  refine foldl_invariant (fun st : List FloatEntry × Calls => ∀ e ∈ st.1, P e) _ ?_ _ _
    (by simp)
  intro st ir hst
  unfold regionStep
  exact foldl_invariant (fun st : List FloatEntry × Calls => ∀ e ∈ st.1, P e) _
    (fun b _ hb => hpush ir.2 b hb) _ _ hst

theorem getRealisticTemperature_bounds (lat : ℚ) (d : Draw) :
    2 ≤ getRealisticTemperature lat d ∧ getRealisticTemperature lat d ≤ 30 := by
  unfold getRealisticTemperature
  refine ⟨le_max_left _ _, max_le (by norm_num) ?_⟩
  have h1 : 0 ≤ |lat| := abs_nonneg lat
  have h2 := d.lt_one
  linarith

theorem getRealisticSalinity_bounds (lat : ℚ) (d : Draw) :
    33 ≤ getRealisticSalinity lat d ∧ getRealisticSalinity lat d ≤ 37 := by
  unfold getRealisticSalinity
  exact ⟨le_max_left _ _, max_le (by norm_num) (min_le_left _ _)⟩

/-- C18 amended: for scalar-valued entries `getDataStatistics` applies no band check: over a
non-empty catalog of scalar-valued entries with finite readings the reported temperature min
and max are the least and the greatest scalar temperature, in band or not, and likewise for
salinity; the scalars that `generateMockFloatData` writes are always in band (temperature
within 2..30, salinity within 33..37). -/
theorem getDataStatistics_scalars (cat : List FloatEntry) (temps sals : List ℚ)
    (hne : cat ≠ [])
    (htemps : cat.map (fun f => f.temperature) = scalarFields temps)
    (hsals : cat.map (fun f => f.salinity) = scalarFields sals) :
    (∃ m M, (getDataStatistics cat).tempRange = { min := .fin m, max := .fin M } ∧
      IsMinOf m temps ∧ IsMaxOf M temps) ∧
    (∃ m M, (getDataStatistics cat).salinityRange = { min := .fin m, max := .fin M } ∧
      IsMinOf m sals ∧ IsMaxOf M sals) ∧
    ∀ (w : World) (k : Calls), ∀ e ∈ (generateMockFloatData w k).1,
      ∃ t s : ℚ, e.temperature = .scalar (.fin t) ∧ 2 ≤ t ∧ t ≤ 30 ∧
        e.salinity = .scalar (.fin s) ∧ 33 ≤ s ∧ s ≤ 37 := by
  refine ⟨?_, ?_, ?_⟩
  · obtain ⟨m, M, h, hm, hM⟩ := range_of_scalars cat temps hne _ htemps (.fin (-5)) (.fin 100)
    refine ⟨m, M, ?_, hm, hM⟩
    rw [getDataStatistics_tempRange, h]
    simp [JSNum.strictEq]
  · obtain ⟨m, M, h, hm, hM⟩ := range_of_scalars cat sals hne _ hsals (.fin 20) (.fin 50)
    refine ⟨m, M, ?_, hm, hM⟩
    rw [getDataStatistics_salinityRange, h]
    simp [JSNum.strictEq]
  · intro w k
    refine generateMockFloatData_forall _ ?_ w k
    intro w region count k
    exact ⟨_, _, rfl, (getRealisticTemperature_bounds _ _).1,
      (getRealisticTemperature_bounds _ _).2, rfl, (getRealisticSalinity_bounds _ _).1,
      (getRealisticSalinity_bounds _ _).2⟩

/-- Witness for the amended C18: the scalars 5, 31, -10 and 150 in four entries. -/
theorem getDataStatistics_scalars_witness :
    catalogFourScalars ≠ [] ∧
    (catalogFourScalars.map (fun f => f.temperature) = scalarFields [5, 31, -10, 150]) ∧
    (catalogFourScalars.map (fun f => f.salinity) = scalarFields [35, 35, 35, 35]) ∧
    (∃ m M, (getDataStatistics catalogFourScalars).tempRange = { min := .fin m, max := .fin M } ∧
      IsMinOf m [5, 31, -10, 150] ∧ IsMaxOf M [5, 31, -10, 150]) :=
  ⟨by simp [catalogFourScalars], rfl, rfl,
   (getDataStatistics_scalars catalogFourScalars [5, 31, -10, 150] [35, 35, 35, 35]
      (by simp [catalogFourScalars]) rfl rfl).1⟩

/-! ## Identifiers -/

theorem digitChar_value (d : Nat) (hd : d < 10) :
    digitValue (Nat.digitChar d) = d ∧ Nat.digitChar d ≠ '_' := by
  interval_cases d <;> decide

theorem decimalValue_snoc (cs : List Char) (ch : Char) :
    decimalValue (cs ++ [ch]) = decimalValue cs * 10 + digitValue ch := by
  simp [decimalValue, List.foldl_append]

/-- With enough fuel `Nat.toDigitsCore` in base 10 puts before the accumulator the decimal
digits of `n`, none of which is an underscore. -/
theorem toDigitsCore_decimal : ∀ (fuel n : Nat) (tl : List Char), n < fuel →
    ∃ front, Nat.toDigitsCore 10 fuel n tl = front ++ tl ∧ decimalValue front = n ∧
      ∀ ch ∈ front, ch ≠ '_' := by
  intro fuel
  induction fuel with
  | zero => intro n tl h; omega
  | succ fuel ih =>
    intro n tl h
    have hd := digitChar_value (n % 10) (Nat.mod_lt _ (by decide))
    simp only [Nat.toDigitsCore]
    split
    · next h0 =>
      refine ⟨[Nat.digitChar (n % 10)], rfl, ?_, ?_⟩
      · have hn : n % 10 = n := by omega
        simp only [decimalValue, List.foldl_cons, List.foldl_nil, Nat.zero_mul, Nat.zero_add,
          hd.1]
        exact hn
      · intro ch hch
        rw [List.mem_singleton.mp hch]
        exact hd.2
    · next h0 =>
      have hlt : n / 10 < fuel := by omega
      obtain ⟨front, hfront, hval, hch⟩ := ih _ (Nat.digitChar (n % 10) :: tl) hlt
      refine ⟨front ++ [Nat.digitChar (n % 10)], ?_, ?_, ?_⟩
      · rw [hfront]; simp
      · rw [decimalValue_snoc, hval, hd.1]; omega
      · intro ch hc
        rcases List.mem_append.mp hc with hc | hc
        · exact hch ch hc
        · rw [List.mem_singleton.mp hc]; exact hd.2

theorem toString_nat_data (n : Nat) :
    decimalValue (toString n).data = n ∧ ∀ ch ∈ (toString n).data, ch ≠ '_' := by
  obtain ⟨pre, hpre, hval, hch⟩ := toDigitsCore_decimal (n + 1) n [] (by omega)
  have h : (toString n).data = pre := by
    show (Nat.repr n).data = pre
    simp only [Nat.repr, Nat.toDigits, hpre, List.append_nil, List.asString]
  rw [h]
  exact ⟨hval, hch⟩

theorem toString_nat_injective (a b : Nat) (h : toString a = toString b) : a = b := by
  have ha := (toString_nat_data a).1
  rw [h, (toString_nat_data b).1] at ha
  exact ha.symm

theorem append_sep_inj {α : Type} (sep : α) :
    ∀ (l₁ l₂ d₁ d₂ : List α), sep ∉ d₁ → sep ∉ d₂ →
      l₁ ++ sep :: d₁ = l₂ ++ sep :: d₂ → l₁ = l₂ ∧ d₁ = d₂ := by
  intro l₁
  induction l₁ with
  | nil =>
    intro l₂ d₁ d₂ h1 h2 h
    cases l₂ with
    | nil => simp at h; exact ⟨rfl, h⟩
    | cons b l₂ =>
      simp only [List.nil_append, List.cons_append, List.cons.injEq] at h
      exact absurd (h.2 ▸ List.mem_append_right l₂ (List.mem_cons_self sep d₂)) h1
  | cons a l₁ ih =>
    intro l₂ d₁ d₂ h1 h2 h
    cases l₂ with
    | nil =>
      simp only [List.nil_append, List.cons_append, List.cons.injEq] at h
      exact absurd (h.2 ▸ List.mem_append_right l₁ (List.mem_cons_self sep d₁)) h2
    | cons b l₂ =>
      simp only [List.cons_append, List.cons.injEq] at h
      obtain ⟨h3, h4⟩ := ih l₂ d₁ d₂ h1 h2 h.2
      exact ⟨by rw [h.1, h3], h4⟩

/-- The identifier of a decoded entry determines the float identifier and the index. -/
theorem decoded_id_injective (f g : String) (i j : Nat)
    (h : "ARGO_" ++ f ++ "_" ++ toString i = "ARGO_" ++ g ++ "_" ++ toString j) :
    f = g ∧ i = j := by
  have hd := congrArg String.data h
  simp only [String.data_append, List.append_assoc] at hd
  have hsep : ("ARGO_".data ++ f.data) ++ '_' :: (toString i).data =
      ("ARGO_".data ++ g.data) ++ '_' :: (toString j).data := by
    simpa [List.append_assoc] using hd
  obtain ⟨h1, h2⟩ := append_sep_inj '_' _ _ _ _ (fun hm => (toString_nat_data i).2 _ hm rfl)
    (fun hm => (toString_nat_data j).2 _ hm rfl) hsep
  refine ⟨String.ext (List.append_cancel_left h1), ?_⟩
  have hi := (toString_nat_data i).1
  rw [h2, (toString_nat_data j).1] at hi
  exact hi.symm

/-- The identifier of a synthetic entry determines its number. -/
theorem synthetic_id_injective (i j : Nat)
    (h : "ARGO_" ++ toString i = "ARGO_" ++ toString j) : i = j := by
  have hd := congrArg String.data h
  simp only [String.data_append] at hd
  exact toString_nat_injective i j (String.ext (List.append_cancel_left hd))

/-! ## The synthetic population: count, boxes and identifiers -/

theorem buildFloats_length (w : World) (boxes : List Region) :
    ∀ (count : Nat) (k : Calls), (buildFloats w boxes count k).1.length = boxes.length := by
  induction boxes with
  | nil => intro count k; rfl
  | cons rg rest ih => intro count k; simp [buildFloats, ih]

theorem buildFloats_append (w : World) (a b : List Region) :
    ∀ (count : Nat) (k : Calls),
      buildFloats w (a ++ b) count k =
        ((buildFloats w a count k).1 ++
            (buildFloats w b (count + a.length) (buildFloats w a count k).2).1,
          (buildFloats w b (count + a.length) (buildFloats w a count k).2).2) := by
  induction a with
  | nil => intro count k; simp [buildFloats]
  | cons rg rest ih =>
    intro count k
    have h := ih (count + 1) (newFloat w rg count k).2
    have hc : count + 1 + rest.length = count + (rest.length + 1) := by omega
    rw [hc] at h
    rw [List.cons_append]
    simp only [buildFloats, List.length_cons]
    rw [h]
    rfl

theorem foldl_pushFloat (w : World) (rg : Region) (l : List Nat) :
    ∀ st : List FloatEntry × Calls,
      l.foldl (fun s _ => pushFloat w rg s) st =
        (st.1 ++ (buildFloats w (List.replicate l.length rg) st.1.length st.2).1,
          (buildFloats w (List.replicate l.length rg) st.1.length st.2).2) := by
  induction l with
  | nil => intro st; simp [buildFloats]
  | cons a l ih =>
    intro st
    simp only [List.foldl_cons, List.length_cons, List.replicate_succ, buildFloats]
    rw [ih]
    simp [pushFloat]

theorem regionStep_buildFloats (w : World) (st : List FloatEntry × Calls) (ir : Nat × Region) :
    regionStep w st ir =
      (st.1 ++ (buildFloats w (List.replicate (floatsPerRegion ir.1) ir.2) st.1.length st.2).1,
        (buildFloats w (List.replicate (floatsPerRegion ir.1) ir.2) st.1.length st.2).2) := by
  unfold regionStep
  rw [foldl_pushFloat, List.length_range]

theorem foldl_regionStep (w : World) (irs : List (Nat × Region)) :
    ∀ st : List FloatEntry × Calls,
      irs.foldl (regionStep w) st =
        (st.1 ++ (buildFloats w
            (irs.flatMap fun ir => List.replicate (floatsPerRegion ir.1) ir.2)
            st.1.length st.2).1,
          (buildFloats w (irs.flatMap fun ir => List.replicate (floatsPerRegion ir.1) ir.2)
            st.1.length st.2).2) := by
  induction irs with
  | nil => intro st; simp [buildFloats]
  | cons ir irs ih =>
    intro st
    rw [List.foldl_cons, ih, regionStep_buildFloats]
    simp only [List.flatMap_cons, buildFloats_append, List.length_append, buildFloats_length,
      List.length_replicate, List.append_assoc]

/-- The nested loops build the floats one after another along the box sequence. -/
theorem generateMockFloatData_eq_buildFloats (w : World) (k : Calls) :
    generateMockFloatData w k = buildFloats w boxSequence 0 k := by
  unfold generateMockFloatData boxSequence
  rw [foldl_regionStep]
  simp

theorem newFloat_id (w : World) (rg : Region) (count : Nat) (k : Calls) :
    (newFloat w rg count k).1.id = "ARGO_" ++ toString (4900000 + count) := rfl

theorem buildFloats_ids (w : World) (boxes : List Region) :
    ∀ (count : Nat) (k : Calls),
      (buildFloats w boxes count k).1.map (fun e => e.id) =
        (List.range boxes.length).map fun i => "ARGO_" ++ toString (4900000 + (count + i)) := by
  induction boxes with
  | nil => intro count k; rfl
  | cons rg rest ih =>
    intro count k
    simp only [buildFloats, List.map_cons, List.length_cons, List.range_succ_eq_map, ih,
      newFloat_id, List.map_map, Nat.add_zero]
    congr 1
    apply List.map_congr_left
    intro i _
    simp only [Function.comp]
    congr 2
    omega

theorem boxSequence_eq :
    boxSequence =
      List.replicate 9 ⟨10, 25, 55, 75⟩ ++ List.replicate 9 ⟨5, 22, 80, 95⟩ ++
      List.replicate 8 ⟨-20, 5, 60, 90⟩ ++ List.replicate 8 ⟨-40, -20, 30, 110⟩ ++
      List.replicate 8 ⟨-30, 10, 40, 60⟩ ++ List.replicate 8 ⟨-35, -5, 90, 115⟩ := by
  rfl

/-- C20: for every sequence of draws `generateMockFloatData` returns exactly 50 entries, the
six boxes receiving 9, 9, 8, 8, 8, 8 floats in order (8 each and the remainder 2 to the two
earliest), built one after another along that box sequence; the i-th entry has id `ARGO_`
followed by 4900000 + i, and the ids are pairwise distinct. -/
theorem generateMockFloatData_count_and_ids (w : World) (k : Calls) :
    (generateMockFloatData w k).1.length = 50 ∧
    50 / oceanRegions.length = 8 ∧ 50 % oceanRegions.length = 2 ∧
    (List.range 6).map floatsPerRegion = [9, 9, 8, 8, 8, 8] ∧
    generateMockFloatData w k = buildFloats w boxSequence 0 k ∧
    boxSequence =
      List.replicate 9 ⟨10, 25, 55, 75⟩ ++ List.replicate 9 ⟨5, 22, 80, 95⟩ ++
      List.replicate 8 ⟨-20, 5, 60, 90⟩ ++ List.replicate 8 ⟨-40, -20, 30, 110⟩ ++
      List.replicate 8 ⟨-30, 10, 40, 60⟩ ++ List.replicate 8 ⟨-35, -5, 90, 115⟩ ∧
    (generateMockFloatData w k).1.map (fun e => e.id) =
      (List.range 50).map (fun i => "ARGO_" ++ toString (4900000 + i)) ∧
    ((generateMockFloatData w k).1.map (fun e => e.id)).Nodup := by
  have hlen : boxSequence.length = 50 := by decide
  have hids : (generateMockFloatData w k).1.map (fun e => e.id) =
      (List.range 50).map (fun i => "ARGO_" ++ toString (4900000 + i)) := by
    rw [generateMockFloatData_eq_buildFloats, buildFloats_ids, hlen]
    simp
  refine ⟨generateMockFloatData_length w k, by decide, by decide, by decide,
    generateMockFloatData_eq_buildFloats w k, boxSequence_eq, hids, ?_⟩
  rw [hids]
  refine List.Nodup.map ?_ (List.nodup_range 50)
  intro i j hij
  have := synthetic_id_injective _ _ hij
  omega

/-! ## Decoded entries: fields and identifiers -/

theorem newEntry_builtFrom (w : World) (f : String) (r idx : Nat) (p : Profile) :
    BuiltFrom f idx p (newEntry w f r idx p).1 :=
  ⟨rfl, rfl, rfl, rfl, rfl, rfl, rfl, rfl⟩

theorem entriesInOrder_spec (w : World) (f : String) (ps : List Profile) :
    ∀ (r idx : Nat),
      (entriesInOrder w f r idx ps).1.length = ps.length ∧
      ∀ (i : Nat) (p : Profile), ps[i]? = some p →
        ∃ e, (entriesInOrder w f r idx ps).1[i]? = some e ∧ BuiltFrom f (idx + i) p e := by
  induction ps with
  | nil => intro r idx; exact ⟨rfl, fun i p h => by simp at h⟩
  | cons q ps ih =>
    intro r idx
    obtain ⟨hlen, hget⟩ := ih (newEntry w f r idx q).2 (idx + 1)
    refine ⟨by simp [entriesInOrder, hlen], ?_⟩
    intro i p hp
    cases i with
    | zero =>
      simp only [List.getElem?_cons_zero, Option.some.injEq] at hp
      subst hp
      exact ⟨_, by simp [entriesInOrder], newEntry_builtFrom w f r idx q⟩
    | succ i =>
      simp only [List.getElem?_cons_succ] at hp
      obtain ⟨e, he, hb⟩ := hget i p hp
      refine ⟨e, by simpa [entriesInOrder] using he, ?_⟩
      have hidx : idx + (i + 1) = idx + 1 + i := by omega
      rw [hidx]
      exact hb

theorem entriesInOrder_mem (w : World) (f : String) (ps : List Profile) :
    ∀ (r idx : Nat), ∀ e ∈ (entriesInOrder w f r idx ps).1,
      ∃ (i : Nat) (p : Profile), ps[i]? = some p ∧ BuiltFrom f (idx + i) p e := by
  induction ps with
  | nil => intro r idx e he; simp [entriesInOrder] at he
  | cons q ps ih =>
    intro r idx e he
    simp only [entriesInOrder, List.mem_cons] at he
    rcases he with he | he
    · subst he
      exact ⟨0, q, List.getElem?_cons_zero, newEntry_builtFrom w f r idx q⟩
    · obtain ⟨i, p, hp, hb⟩ := ih _ _ e he
      refine ⟨i + 1, p, by simpa using hp, ?_⟩
      have hidx : idx + (i + 1) = idx + 1 + i := by omega
      rw [hidx]
      exact hb

theorem entriesInOrder_ids_nodup (w : World) (f : String) (ps : List Profile) :
    ∀ (r idx : Nat), ((entriesInOrder w f r idx ps).1.map fun e => e.id).Nodup := by
  induction ps with
  | nil => intro r idx; simp [entriesInOrder]
  | cons q ps ih =>
    intro r idx
    simp only [entriesInOrder, List.map_cons, List.nodup_cons]
    refine ⟨?_, ih _ _⟩
    intro hmem
    obtain ⟨e, he, hid⟩ := List.mem_map.mp hmem
    obtain ⟨i, p, -, hb⟩ := entriesInOrder_mem w f ps _ _ e he
    have h1 : (newEntry w f r idx q).1.id = "ARGO_" ++ f ++ "_" ++ toString idx := rfl
    rw [h1, hb.1] at hid
    have := (decoded_id_injective _ _ _ _ hid).2
    omega

/-- Every decoded entry is built from a record of one of the sources. -/
theorem decodedEntries_mem (w : World) (sources : List Source) :
    ∀ (k : Calls), ∀ e ∈ decodedEntries w k sources,
      ∃ s ∈ sources, ∃ (data : NcData) (f : String) (c i : Nat) (p : Profile),
        s.fetched = some data ∧ s.floatId = some f ∧
        (parseNetCDFData w.clock c data f).1.profiles[i]? = some p ∧ BuiltFrom f i p e := by
  induction sources with
  | nil => intro k e he; simp [decodedEntries] at he
  | cons s rest ih =>
    intro k e he
    have hrest : ∀ k', e ∈ decodedEntries w k' rest →
        ∃ s' ∈ s :: rest, ∃ (data : NcData) (f : String) (c i : Nat) (p : Profile),
          s'.fetched = some data ∧ s'.floatId = some f ∧
          (parseNetCDFData w.clock c data f).1.profiles[i]? = some p ∧ BuiltFrom f i p e := by
      intro k' hk'
      obtain ⟨s', hs', h⟩ := ih k' e hk'
      exact ⟨s', List.mem_cons_of_mem _ hs', h⟩
    cases hf : s.fetched with
    | none =>
      simp only [decodedEntries, hf] at he
      exact hrest _ he
    | some data =>
      cases hi : s.floatId with
      | none =>
        simp only [decodedEntries, hf, hi] at he
        exact hrest _ he
      | some f =>
        simp only [decodedEntries, hf, hi, List.mem_append] at he
        rcases he with he | he
        · obtain ⟨i, p, hp, hb⟩ := entriesInOrder_mem w f _ _ _ e he
          rw [Nat.zero_add] at hb
          exact ⟨s, List.mem_cons_self _ _, data, f, k.clock, i, p, hf, hi, hp, hb⟩
        · exact hrest _ he

theorem decodedEntries_ids_nodup (w : World) (sources : List Source) :
    ∀ (k : Calls), (sources.filterMap fun s => s.floatId).Nodup →
      ((decodedEntries w k sources).map fun e => e.id).Nodup := by
  induction sources with
  | nil => intro k _; simp [decodedEntries]
  | cons s rest ih =>
    intro k hnd
    cases hi : s.floatId with
    | none =>
      have hnd' : (rest.filterMap fun s => s.floatId).Nodup := by
        simpa [List.filterMap_cons, hi] using hnd
      cases hf : s.fetched <;> simp only [decodedEntries, hf, hi] <;> exact ih _ hnd'
    | some f =>
      have hnd' : f ∉ (rest.filterMap fun s => s.floatId) ∧
          (rest.filterMap fun s => s.floatId).Nodup := by
        simpa [List.filterMap_cons, hi] using hnd
      cases hf : s.fetched with
      | none =>
        simp only [decodedEntries, hf]
        exact ih _ hnd'.2
      | some data =>
        simp only [decodedEntries, hf, hi, List.map_append]
        refine List.Nodup.append (entriesInOrder_ids_nodup w f _ _ _) (ih _ hnd'.2) ?_
        intro x hx1 hx2
        obtain ⟨e1, he1, hid1⟩ := List.mem_map.mp hx1
        obtain ⟨e2, he2, hid2⟩ := List.mem_map.mp hx2
        obtain ⟨i, p, -, hb1⟩ := entriesInOrder_mem w f _ _ _ e1 he1
        obtain ⟨s', hs', data', g, c, j, p', -, hg, -, hb2⟩ := decodedEntries_mem w rest _ e2 he2
        have hid : "ARGO_" ++ f ++ "_" ++ toString (0 + i) = "ARGO_" ++ g ++ "_" ++ toString j := by
          rw [← hb1.1, ← hb2.1, hid1, hid2]
        have hfg := (decoded_id_injective _ _ _ _ hid).1
        apply hnd'.1
        rw [hfg]
        exact List.mem_filterMap.mpr ⟨s', hs', hg⟩

/-- C16: the entry built from the k-th record of float `f` has id `ARGO_f_k`, index `k`, type
`Core` and the record's four sequences: one source step pushes one such entry per record, in
record order; every entry of the replaced catalog is built so from a record of one of the
sources; and when the float identifiers of the sources are pairwise distinct, the ids in the
replaced catalog are pairwise distinct. -/
theorem decoded_entries_built (w : World) (sources : List Source) (app : AppState) (k : Calls)
    (h : decodedEntries w k sources ≠ []) :
    (∀ (st : LoadState) (s : Source) (data : NcData) (f : String),
      s.fetched = some data → s.floatId = some f →
      ∃ es, (sourceStep w st s).newFloatData = st.newFloatData ++ es ∧
        es.length = (parseNetCDFData w.clock st.calls.clock data f).1.profiles.length ∧
        ∀ (i : Nat) (p : Profile),
          (parseNetCDFData w.clock st.calls.clock data f).1.profiles[i]? = some p →
          ∃ e, es[i]? = some e ∧ BuiltFrom f i p e) ∧
    (∀ e ∈ (loadNetCDFFilesFrom w sources app k).1.floatData,
      ∃ s ∈ sources, ∃ (data : NcData) (f : String) (c i : Nat) (p : Profile),
        s.fetched = some data ∧ s.floatId = some f ∧
        (parseNetCDFData w.clock c data f).1.profiles[i]? = some p ∧ BuiltFrom f i p e) ∧
    ((sources.filterMap fun s => s.floatId).Nodup →
      ((loadNetCDFFilesFrom w sources app k).1.floatData.map fun e => e.id).Nodup) := by
  refine ⟨?_, ?_, ?_⟩
  · intro st s data f hf hi
    obtain ⟨h1, -⟩ := sourceStep_decoded w st s data f hf hi
    obtain ⟨hlen, hget⟩ := entriesInOrder_spec w f
      (parseNetCDFData w.clock st.calls.clock data f).1.profiles st.calls.random 0
    refine ⟨_, h1, hlen, ?_⟩
    intro i p hp
    obtain ⟨e, he, hb⟩ := hget i p hp
    rw [Nat.zero_add] at hb
    exact ⟨e, he, hb⟩
  · rw [(loadNetCDFFilesFrom_of_decoded w sources app k h).1]
    exact decodedEntries_mem w sources k
  · intro hnd
    rw [(loadNetCDFFilesFrom_of_decoded w sources app k h).1]
    exact decodedEntries_ids_nodup w sources k hnd

/-- Witness for C16: one source of three records and one failed source, with distinct float
identifiers, ingested over the synthetic catalog. -/
theorem decoded_entries_built_witness :
    decodedEntries worldFifth (init worldFifth).2 [sourceThree, sourceFailed] ≠ [] ∧
    ([sourceThree, sourceFailed].filterMap fun s => s.floatId).Nodup ∧
    ((loadNetCDFFilesFrom worldFifth [sourceThree, sourceFailed] (init worldFifth).1
        (init worldFifth).2).1.floatData.map fun e => e.id).Nodup :=
  have hne : decodedEntries worldFifth (init worldFifth).2 [sourceThree, sourceFailed] ≠ [] :=
    fun h => absurd (h ▸ decodedEntries_three_length) (by decide)
  have hnd : ([sourceThree, sourceFailed].filterMap fun s => s.floatId).Nodup := by decide
  ⟨hne, hnd,
   (decoded_entries_built worldFifth [sourceThree, sourceFailed] (init worldFifth).1
      (init worldFifth).2 hne).2.2 hnd⟩

/-! ## The synthetic sensor generators -/

theorem clamp_bounds (a b x : ℚ) (hab : a ≤ b) : a ≤ max a (min b x) ∧ max a (min b x) ≤ b :=
  ⟨le_max_left _ _, max_le hab (min_le_left _ _)⟩

/-- C21: for every latitude and every draw in `[0, 1)`, `getRealisticPH` is within 7.8..8.3,
`getRealisticOxygen` within 2..9, `getRealisticSalinity` within 33..37, `getRealisticNitrate`
within 0..45, and `getRealisticTemperature` is at least 2. -/
theorem getRealistic_bounds (lat : ℚ) (d d' : Draw) :
    (7.8 ≤ getRealisticPH lat d ∧ getRealisticPH lat d ≤ 8.3) ∧
    (2 ≤ getRealisticOxygen lat d d' ∧ getRealisticOxygen lat d d' ≤ 9) ∧
    (33 ≤ getRealisticSalinity lat d ∧ getRealisticSalinity lat d ≤ 37) ∧
    (0 ≤ getRealisticNitrate lat d ∧ getRealisticNitrate lat d ≤ 45) ∧
    2 ≤ getRealisticTemperature lat d := by
  refine ⟨?_, ?_, ?_, ?_, ?_⟩
  · exact clamp_bounds _ _ _ (by norm_num)
  · exact clamp_bounds _ _ _ (by norm_num)
  · exact clamp_bounds _ _ _ (by norm_num)
  · exact clamp_bounds _ _ _ (by norm_num)
  · exact le_max_left _ _

/-! ## The aggregator: order of the reported range -/

/-- C26 fails on the code: with one sequence `[-10]` and one sequence `[200]` the maximum -10
passes `< 100` and the minimum 200 passes `> -5`, so the reported temperature range is
`{min: 200, max: -10}`; with salinities `[10]` and `[60]` the salinity range is
`{min: 60, max: 10}`. In both the max is below the min. -/
theorem getDataStatistics_range_inverted :
    (getDataStatistics catalogInverted).tempRange = { min := .fin 200, max := .fin (-10) } ∧
    (getDataStatistics catalogInverted).salinityRange = { min := .fin 60, max := .fin 10 } ∧
    JSNum.lt (getDataStatistics catalogInverted).tempRange.max
      (getDataStatistics catalogInverted).tempRange.min = true ∧
    JSNum.lt (getDataStatistics catalogInverted).salinityRange.max
      (getDataStatistics catalogInverted).salinityRange.min = true := by
  decide

/-! ## Region names inside the sampling boxes -/

theorem getRegionName_fin (lat lon : ℚ) :
    getRegionName (.fin lat) (.fin lon) =
      if 10 < lat ∧ 55 < lon ∧ lon < 75 then "Arabian Sea"
      else if 5 < lat ∧ lat < 22 ∧ 80 < lon ∧ lon < 95 then "Bay of Bengal"
      else if -20 < lat ∧ lat < 5 ∧ 60 < lon ∧ lon < 90 then "Central Indian Ocean"
      else if lat < -20 ∧ 30 < lon ∧ lon < 110 then "Southern Indian Ocean"
      else if -30 < lat ∧ lat < 10 ∧ 40 < lon ∧ lon < 60 then "Western Indian Ocean"
      else if -35 < lat ∧ lat < -5 ∧ 90 < lon ∧ lon < 115 then "Eastern Indian Ocean"
      else "Indian Ocean" := by
  simp only [getRegionName, JSNum.gt, JSNum.lt, Bool.and_eq_true, decide_eq_true_eq, and_assoc]

theorem oceanRegions_cases (i : Nat) (box : Region) (hbox : oceanRegions[i]? = some box) :
    (i = 0 ∧ box = ⟨10, 25, 55, 75⟩) ∨ (i = 1 ∧ box = ⟨5, 22, 80, 95⟩) ∨
    (i = 2 ∧ box = ⟨-20, 5, 60, 90⟩) ∨ (i = 3 ∧ box = ⟨-40, -20, 30, 110⟩) ∨
    (i = 4 ∧ box = ⟨-30, 10, 40, 60⟩) ∨ (i = 5 ∧ box = ⟨-35, -5, 90, 115⟩) := by
  match i, hbox with
  | 0, h => left; exact ⟨rfl, (Option.some.inj h).symm⟩
  | 1, h => right; left; exact ⟨rfl, (Option.some.inj h).symm⟩
  | 2, h => right; right; left; exact ⟨rfl, (Option.some.inj h).symm⟩
  | 3, h => right; right; right; left; exact ⟨rfl, (Option.some.inj h).symm⟩
  | 4, h => right; right; right; right; left; exact ⟨rfl, (Option.some.inj h).symm⟩
  | 5, h => right; right; right; right; right; exact ⟨rfl, (Option.some.inj h).symm⟩
  | n + 6, h => simp [oceanRegions] at h

/-- C28: a point strictly inside the sampling box of index `i` is named by `getRegionName`
after a region, never `'Indian Ocean'`: boxes 0 to 3 give Arabian Sea, Bay of Bengal, Central
and Southern Indian Ocean; box 4 gives Southern below latitude -20 and Western from -20 up;
box 5 gives Southern below latitude -20 west of longitude 110 and Eastern otherwise. -/
theorem getRegionName_in_box (i : Nat) (box : Region) (lat lon : ℚ)
    (hbox : oceanRegions[i]? = some box) (hin : box.StrictlyInside lat lon) :
    getRegionName (.fin lat) (.fin lon) = boxRegionName i lat lon ∧
    getRegionName (.fin lat) (.fin lon) ≠ "Indian Ocean" := by
  have key : getRegionName (.fin lat) (.fin lon) = boxRegionName i lat lon := by
    rw [getRegionName_fin]
    simp only [Region.StrictlyInside] at hin
    rcases oceanRegions_cases i box hbox with h | h | h | h | h | h <;>
      obtain ⟨rfl, rfl⟩ := h <;>
      obtain ⟨h1, h2, h3, h4⟩ := hin <;>
      dsimp only at h1 h2 h3 h4 <;>
      simp only [boxRegionName]
    · rw [if_pos ⟨h1, h3, h4⟩]
    · rw [if_neg (fun h => by linarith [h.2.2]), if_pos ⟨h1, h2, h3, h4⟩]
    · rw [if_neg (fun h => by linarith [h.1]), if_neg (fun h => by linarith [h.1]),
        if_pos ⟨h1, h2, h3, h4⟩]
    · rw [if_neg (fun h => by linarith [h.1]), if_neg (fun h => by linarith [h.1]),
        if_neg (fun h => by linarith [h.1]), if_pos ⟨h2, h3, h4⟩]
    · rw [if_neg (fun h => by linarith [h.1]), if_neg (fun h => by linarith [h.2.2.1]),
        if_neg (fun h => by linarith [h.2.2.1])]
      by_cases hl : lat < -20
      · rw [if_pos ⟨hl, by linarith, by linarith⟩, if_pos hl]
      · rw [if_neg (fun h => hl h.1), if_pos ⟨h1, h2, h3, h4⟩, if_neg hl]
    · rw [if_neg (fun h => by linarith [h.1]), if_neg (fun h => by linarith [h.1]),
        if_neg (fun h => by linarith [h.2.2.2])]
      by_cases hc : lat < -20 ∧ lon < 110
      · rw [if_pos ⟨hc.1, by linarith, hc.2⟩, if_pos hc]
      · rw [if_neg (fun h => hc ⟨h.1, h.2.2⟩), if_neg (fun h => by linarith [h.2.2.2]),
          if_pos ⟨h1, h2, h3, h4⟩, if_neg hc]
  refine ⟨key, ?_⟩
  rw [key]
  rcases oceanRegions_cases i box hbox with h | h | h | h | h | h <;>
    obtain ⟨rfl, rfl⟩ := h <;>
    simp only [boxRegionName] <;>
    first
      | decide
      | (split_ifs <;> decide)

/-- Witness for C28: the point (-25, 50) strictly inside box 4. -/
theorem getRegionName_in_box_witness :
    oceanRegions[4]? = some ⟨-30, 10, 40, 60⟩ ∧
    Region.StrictlyInside ⟨-30, 10, 40, 60⟩ (-25) 50 ∧
    getRegionName (.fin (-25)) (.fin 50) = boxRegionName 4 (-25) 50 ∧
    getRegionName (.fin (-25)) (.fin 50) ≠ "Indian Ocean" :=
  ⟨rfl, by norm_num [Region.StrictlyInside],
   getRegionName_in_box 4 ⟨-30, 10, 40, 60⟩ (-25) 50 rfl (by norm_num [Region.StrictlyInside])⟩

/-! ## The decoder: which levels are kept and what is stored -/

theorem levelStep_eq (h : Header) (i : Nat) (p : Profile) (j : Nat) :
    levelStep h i p j =
      if levelAccepted h i j then
        { p with
          temperature := p.temperature ++ [tempAt h i j]
          salinity := p.salinity ++ [salinityAt h i j]
          pressure := p.pressure ++ [pressureAt h i j]
          depth := p.depth ++ [pressureAt h i j] }
      else p := by
  simp only [levelStep, levelAccepted, tempAt, salinityAt, pressureAt]
  cases hx : index h.temp (i * h.nLevels + j) with
  | undefined => simp
  | null => simp
  | num t =>
    simp only [JSVal.toNumber]

theorem foldl_levelStep (h : Header) (i : Nat) (l : List Nat) :
    ∀ p : Profile,
      l.foldl (levelStep h i) p =
        { p with
          temperature := p.temperature ++ (l.filter (levelAccepted h i)).map (tempAt h i)
          salinity := p.salinity ++ (l.filter (levelAccepted h i)).map (salinityAt h i)
          pressure := p.pressure ++ (l.filter (levelAccepted h i)).map (pressureAt h i)
          depth := p.depth ++ (l.filter (levelAccepted h i)).map (pressureAt h i) } := by
  induction l with
  | nil => intro p; simp
  | cons j l ih =>
    intro p
    rw [List.foldl_cons, ih, levelStep_eq]
    cases hacc : levelAccepted h i j <;> simp [List.filter_cons, hacc]

theorem profileStep_sequences (clock : Nat → Int) (h : Header) (st : List Profile × Nat)
    (i : Nat) :
    (profileStep clock h st i).1.map Profile.sequences =
      st.1.map Profile.sequences ++
        (if (acceptedLevels h i).isEmpty then [] else [sequencesOf h i]) := by
  simp only [profileStep, foldl_levelStep]
  cases hacc : acceptedLevels h i with
  | nil =>
    simp only [acceptedLevels] at hacc
    simp [hacc]
  | cons a l =>
    simp only [acceptedLevels] at hacc
    simp [hacc, Profile.sequences, sequencesOf, acceptedLevels]

theorem foldl_profileStep_sequences (clock : Nat → Int) (h : Header) (l : List Nat) :
    ∀ st : List Profile × Nat,
      (l.foldl (profileStep clock h) st).1.map Profile.sequences =
        st.1.map Profile.sequences ++
          (l.filter fun i => !(acceptedLevels h i).isEmpty).map (sequencesOf h) := by
  induction l with
  | nil => intro st; simp
  | cons i l ih =>
    intro st
    rw [List.foldl_cons, ih, profileStep_sequences]
    cases hacc : (acceptedLevels h i).isEmpty <;> simp [List.filter_cons, hacc]

/-- The sequences of the returned records are those of the profiles with an accepted level,
in increasing profile index. -/
theorem parseNetCDFData_sequences (clock : Nat → Int) (c : Nat) (ncData : NcData)
    (floatId : String) (hd : Header) (h : readHeader ncData = some hd) :
    (parseNetCDFData clock c ncData floatId).1.profiles.map Profile.sequences =
      (recordedProfiles hd).map (sequencesOf hd) := by
  simp only [parseNetCDFData, h, recordedProfiles]
  rw [foldl_profileStep_sequences]
  simp

theorem readHeader_fields (ncData : NcData) (hd : Header) (h : readHeader ncData = some hd) :
    ∃ dims, ncData.dimensions = some dims ∧
      hd.nProfiles = dimSizeOr dims "N_PROF" 1 ∧ hd.nLevels = dimSizeOr dims "N_LEVELS" 1000 ∧
      (ncData.getDataVariable "TEMP").get? = some hd.temp ∧
      (ncData.getDataVariable "PSAL").get? = some hd.psal ∧
      (ncData.getDataVariable "PRES").get? = some hd.pres := by
  simp only [readHeader, Option.bind_eq_bind, Option.bind_eq_some, Option.pure_def,
    Option.some.injEq] at h
  obtain ⟨dims, hdims, lat, -, lon, -, juld, -, temp, htemp, psal, hpsal, pres, hpres, rfl⟩ := h
  exact ⟨dims, hdims, rfl, rfl, htemp, hpsal, hpres⟩

theorem mem_acceptedLevels (h : Header) (i j : Nat) :
    j ∈ acceptedLevels h i ↔ j < h.nLevels ∧ levelAccepted h i j = true := by
  simp [acceptedLevels]

theorem index_of_levelAccepted (h : Header) (i j : Nat) (hacc : levelAccepted h i j = true) :
    index h.temp (i * h.nLevels + j) = JSVal.num (tempAt h i j) := by
  simp only [levelAccepted, tempAt] at *
  cases hx : index h.temp (i * h.nLevels + j) with
  | undefined => rw [hx] at hacc; simp at hacc
  | null => rw [hx] at hacc; simp at hacc
  | num t => rfl

/-- C22: with P profiles and L levels, the temperature sequence of the record of profile `i`
is the list of `TEMP[i * L + j]` over the accepted levels `j < L` in increasing `j`, and the
returned records are those of the profiles with an accepted level, in increasing `i`. -/
theorem parseNetCDFData_temperature_rowMajor (clock : Nat → Int) (c : Nat) (ncData : NcData)
    (floatId : String) (hd : Header) (h : readHeader ncData = some hd) :
    (parseNetCDFData clock c ncData floatId).1.profiles.map (fun p => p.temperature) =
      (recordedProfiles hd).map (fun i => (acceptedLevels hd i).map (tempAt hd i)) ∧
    (recordedProfiles hd).Pairwise (· < ·) ∧
    (∀ i, i ∈ recordedProfiles hd ↔ i < hd.nProfiles ∧ acceptedLevels hd i ≠ []) ∧
    (∀ i, (acceptedLevels hd i).Pairwise (· < ·)) ∧
    (∀ i j, j ∈ acceptedLevels hd i ↔ j < hd.nLevels ∧ levelAccepted hd i j = true) ∧
    (∀ i j, levelAccepted hd i j = true →
      index hd.temp (i * hd.nLevels + j) = JSVal.num (tempAt hd i j)) ∧
    ∃ dims, ncData.dimensions = some dims ∧
      hd.nProfiles = dimSizeOr dims "N_PROF" 1 ∧ hd.nLevels = dimSizeOr dims "N_LEVELS" 1000 ∧
      (ncData.getDataVariable "TEMP").get? = some hd.temp := by
  refine ⟨?_, ?_, ?_, ?_, mem_acceptedLevels hd, index_of_levelAccepted hd, ?_⟩
  · have hs := congrArg (List.map fun s : List JSNum × List JSNum × List JSNum × List JSNum => s.1)
      (parseNetCDFData_sequences clock c ncData floatId hd h)
    simpa [List.map_map, Function.comp, Profile.sequences, sequencesOf] using hs
  · exact List.Pairwise.filter _ (List.pairwise_lt_range _)
  · intro i
    simp [recordedProfiles, List.isEmpty_iff]
  · intro i
    exact List.Pairwise.filter _ (List.pairwise_lt_range _)
  · obtain ⟨dims, h1, h2, h3, h4, -, -⟩ := readHeader_fields ncData hd h
    exact ⟨dims, h1, h2, h3, h4⟩

theorem readHeader_grid : readHeader ncGrid = some headerGrid := rfl

/-- Witness for C22: two profiles of two levels with `TEMP = [5, 0, 7, 8]`: the records hold
the temperatures 5, and 7 then 8. -/
theorem parseNetCDFData_temperature_rowMajor_witness :
    readHeader ncGrid = some headerGrid ∧
    (parseNetCDFData clockZero 0 ncGrid "1901766").1.profiles.map (fun p => p.temperature) =
      (recordedProfiles headerGrid).map
        (fun i => (acceptedLevels headerGrid i).map (tempAt headerGrid i)) ∧
    (recordedProfiles headerGrid).map
        (fun i => (acceptedLevels headerGrid i).map (tempAt headerGrid i)) =
      [[.fin 5], [.fin 7, .fin 8]] :=
  ⟨readHeader_grid,
   (parseNetCDFData_temperature_rowMajor clockZero 0 ncGrid "1901766" headerGrid
      readHeader_grid).1,
   by decide⟩

/-- The decoder returns at most `nProfiles` records, each with at most `nLevels` levels. -/
theorem parseNetCDFData_sizes (clock : Nat → Int) (c : Nat) (ncData : NcData)
    (floatId : String) (hd : Header) (h : readHeader ncData = some hd) :
    (parseNetCDFData clock c ncData floatId).1.profiles.length ≤ hd.nProfiles ∧
    ∀ p ∈ (parseNetCDFData clock c ncData floatId).1.profiles,
      p.temperature.length ≤ hd.nLevels := by
  have hs := parseNetCDFData_sequences clock c ncData floatId hd h
  have hlevels : ∀ i, (acceptedLevels hd i).length ≤ hd.nLevels := by
    intro i
    have := List.length_filter_le (levelAccepted hd i) (List.range hd.nLevels)
    simpa [acceptedLevels] using this
  constructor
  · have hl := congrArg List.length hs
    simp only [List.length_map] at hl
    rw [hl]
    have := List.length_filter_le (fun i => !(acceptedLevels hd i).isEmpty)
      (List.range hd.nProfiles)
    simpa [recordedProfiles] using this
  · intro p hp
    have hmem : p.sequences ∈ (recordedProfiles hd).map (sequencesOf hd) := by
      rw [← hs]
      exact List.mem_map_of_mem _ hp
    obtain ⟨i, -, hi⟩ := List.mem_map.mp hmem
    have ht : p.temperature = (acceptedLevels hd i).map (tempAt hd i) := by
      have := congrArg Prod.fst hi
      simpa [sequencesOf, Profile.sequences] using this.symm
    rw [ht, List.length_map]
    exact hlevels i

/-- C23 fails on the code: in a profile of two levels with `PSAL = [0, 34]` and
`PRES = [10, 0]` both zeros are present and below the sentinel, yet the stored salinity is
`[35, 34]` and the stored pressure and depth are `[10, 2]`: a zero is replaced by the
fallback (35, and `j * 2 = 2` at level 1). -/
theorem parseNetCDFData_zero_replaced :
    ncZeroReadings.getDataVariable "PSAL" = VarRead.data [.fin 0, .fin 34] ∧
    ncZeroReadings.getDataVariable "PRES" = VarRead.data [.fin 10, .fin 0] ∧
    (parseNetCDFData clockZero 0 ncZeroReadings "1901766").1.profiles.map Profile.sequences =
      [([.fin 5, .fin 6], [.fin 35, .fin 34], [.fin 10, .fin 2], [.fin 10, .fin 2])] := by
  refine ⟨rfl, rfl, ?_⟩
  decide

set_option maxRecDepth 200000 in
/-- C24 fails on the code: with `N_PROF` and `N_LEVELS` both declared with size 0 the sizes
are falsy, so the defaults 1 and 1000 are taken although the dimensions are present, and the
decoder returns one record of two levels where the declared sizes allow none. -/
theorem parseNetCDFData_zero_sizes_defaulted :
    ncZeroDims.dimensions = some [⟨"N_PROF", 0⟩, ⟨"N_LEVELS", 0⟩] ∧
    dimSizeOr [⟨"N_PROF", 0⟩, ⟨"N_LEVELS", 0⟩] "N_PROF" 1 = 1 ∧
    dimSizeOr [⟨"N_PROF", 0⟩, ⟨"N_LEVELS", 0⟩] "N_LEVELS" 1000 = 1000 ∧
    (parseNetCDFData clockZero 0 ncZeroDims "1901766").1.profiles.map
      (fun p => p.temperature) = [[.fin 5, .fin 6]] := by
  refine ⟨rfl, by decide, by decide, ?_⟩
  decide

/-! ## The placement loop: the twentieth candidate -/

/-- With the draw `0` the candidate in the first box is (10, 55), which passes
`isDeepOcean`. -/
theorem candidate_zero_accepted :
    isDeepOcean (.fin (drawZero.val * ((25 : ℚ) - 10) + 10))
      (.fin (drawZero.val * ((75 : ℚ) - 55) + 55)) = true := by
  norm_num [drawZero, isDeepOcean, JSNum.gt, JSNum.lt]

theorem placeLoop_late : ∀ (n attempts : Nat), attempts + n = 19 →
    placeLoop worldLate.random ⟨10, 25, 55, 75⟩ attempts (2 * attempts) = (10, 55, 20, 40) := by
  intro n
  induction n with
  | zero =>
    intro attempts h
    have ha : attempts = 19 := by omega
    subst ha
    rw [placeLoop_unfold]
    have hc := candidate_zero_accepted
    simp only [worldLate, drawZero] at hc ⊢
    norm_num [hc]
  | succ n ih =>
    intro attempts h
    rw [placeLoop_unfold]
    have h1 : ¬ (2 * attempts = 38 ∨ 2 * attempts = 39) := by omega
    have h2 : ¬ (2 * attempts + 1 = 38 ∨ 2 * attempts + 1 = 39) := by omega
    have hlt : attempts + 1 < 20 := by omega
    have hc := candidate_fifth_rejected
    simp only [worldLate, h1, h2, if_false, hc, Bool.not_false, Bool.true_and, hlt, decide_True,
      if_true]
    have := ih (attempts + 1) (by omega)
    simp only [worldLate] at this
    have he : 2 * attempts + 2 = 2 * (attempts + 1) := by omega
    rw [he]
    exact this

/-- The placement loop stops after at most 20 candidates, each of which costs two draws. -/
theorem placeLoop_bounded (random : Nat → Draw) (region : Region) :
    ∀ (n attempts r : Nat), 20 - attempts = n → attempts < 20 →
      attempts < (placeLoop random region attempts r).2.2.1 ∧
      (placeLoop random region attempts r).2.2.1 ≤ 20 ∧
      (placeLoop random region attempts r).2.2.2 =
        r + 2 * ((placeLoop random region attempts r).2.2.1 - attempts) := by
  intro n
  induction n with
  | zero => intro attempts r h h'; omega
  | succ n ih =>
    intro attempts r h h'
    rw [placeLoop_unfold]
    split
    · next hc =>
      simp only [Bool.and_eq_true, decide_eq_true_eq] at hc
      obtain ⟨h1, h2, h3⟩ := ih (attempts + 1) (r + 2) (by omega) hc.2
      refine ⟨by omega, h2, ?_⟩
      rw [h3]
      omega
    · exact ⟨by simp, by simp; omega, by simp⟩

theorem placeFloat_late :
    placeFloat worldLate.random ⟨10, 25, 55, 75⟩ 0 = (12.5, 87.0, 41) := by
  have hp := placeLoop_late 19 0 rfl
  simp only [Nat.mul_zero] at hp
  have hr : worldLate.random 40 = drawFifth := by simp [worldLate]
  have hget : getKnownOceanLocations.get
      (randomIndex (worldLate.random 40) getKnownOceanLocations.length (by decide)) =
        ⟨12.5, 87.0⟩ := by
    rw [hr]
    exact get_of_val _ _ 3 _ (randomIndex_fifth _) rfl
  unfold placeFloat
  simp only [hp, ge_iff_le, le_refl, if_true, hget]

/-- C25 fails on the code: when the first 19 candidates fail and the twentieth, (10, 55),
passes `isDeepOcean`, the loop exits with `attempts = 20`, so `attempts >= 20` holds and the
position is overwritten by a fallback entry (here (12.5, 87.0), which `isDeepOcean` rejects):
the fallback is used although a candidate passed, and the float does not keep it. -/
theorem placeFloat_discards_twentieth_candidate :
    placeLoop worldLate.random ⟨10, 25, 55, 75⟩ 0 0 = (10, 55, 20, 40) ∧
    isDeepOcean (.fin 10) (.fin 55) = true ∧
    placeFloat worldLate.random ⟨10, 25, 55, 75⟩ 0 = (12.5, 87.0, 41) ∧
    isDeepOcean (.fin 12.5) (.fin 87.0) = false := by
  refine ⟨placeLoop_late 19 0 rfl, by decide, placeFloat_late, table_points_rejected.1⟩

/-! ## The decoder: the level test -/

theorem accepted_iff_presentValid (h : Header) (i j : Nat) :
    levelAccepted h i j = true ↔ PresentValidTemp (index h.temp (i * h.nLevels + j)) := by
  unfold levelAccepted PresentValidTemp
  cases hx : index h.temp (i * h.nLevels + j) with
  | undefined => simp
  | null => simp
  | num t =>
    cases t with
    | fin q =>
      simp only [JSNum.truthy, JSNum.lt, JSNum.isNaN, Bool.and_eq_true, decide_eq_true_eq,
        Bool.not_false, and_true, JSVal.num.injEq, exists_eq_left', true_and, ne_eq,
        JSNum.fin.injEq]
    | nan => simp [JSNum.truthy, JSNum.isNaN]
    | posInf => simp [JSNum.lt]
    | negInf => simp [JSNum.truthy, JSNum.lt, JSNum.isNaN]

theorem parseNetCDFData_nil_of_none_accepted (clock : Nat → Int) (c : Nat) (ncData : NcData)
    (floatId : String) (hd : Header) (h : readHeader ncData = some hd)
    (hnone : ∀ i j, i < hd.nProfiles → j < hd.nLevels →
      ¬ PresentValidTemp (index hd.temp (i * hd.nLevels + j))) :
    (parseNetCDFData clock c ncData floatId).1.profiles = [] := by
  have hs := parseNetCDFData_sequences clock c ncData floatId hd h
  have hrec : recordedProfiles hd = [] := by
    simp only [recordedProfiles, List.filter_eq_nil_iff, List.mem_range, Bool.not_eq_true,
      Bool.not_eq_false', List.isEmpty_iff]
    intro i hi
    simp only [acceptedLevels, List.filter_eq_nil_iff, List.mem_range]
    intro j hj hacc
    exact hnone i j hi hj ((accepted_iff_presentValid hd i j).mp hacc)
  rw [hrec] at hs
  simpa using hs

/-- C27: a level is accepted exactly when its temperature value is present, is not NaN, is
not zero and is below 99999; an accepted level appends its temperature and a rejected one
leaves the record unchanged; a file none of whose levels is accepted yields no record, as
does the profile whose temperatures are 0, 0 and the sentinel 99999. -/
theorem levelAccepted_iff :
    (∀ (h : Header) (i j : Nat),
      levelAccepted h i j = true ↔ PresentValidTemp (index h.temp (i * h.nLevels + j))) ∧
    (∀ (h : Header) (i : Nat) (p : Profile) (j : Nat),
      (levelAccepted h i j = true →
        (levelStep h i p j).temperature = p.temperature ++ [tempAt h i j]) ∧
      (levelAccepted h i j = false → levelStep h i p j = p)) ∧
    (∀ (clock : Nat → Int) (c : Nat) (ncData : NcData) (floatId : String) (hd : Header),
      readHeader ncData = some hd →
      (∀ i j, i < hd.nProfiles → j < hd.nLevels →
        ¬ PresentValidTemp (index hd.temp (i * hd.nLevels + j))) →
      (parseNetCDFData clock c ncData floatId).1.profiles = []) ∧
    ¬ PresentValidTemp (JSVal.num (.fin 0)) ∧
    (parseNetCDFData clockZero 0 ncZeroTemps "1901766").1.profiles = [] := by
  refine ⟨accepted_iff_presentValid, ?_, parseNetCDFData_nil_of_none_accepted, ?_, by decide⟩
  · intro h i p j
    rw [levelStep_eq]
    constructor
    · intro hacc; simp [hacc]
    · intro hacc; simp [hacc]
  · rintro ⟨t, ht, -, h0, -⟩
    exact h0 (JSVal.num.inj ht).symm

end ArgoAssistant
